import Mathlib

/-!
Verification of the entity/combat core of the "Lost Barbarian" 2D action game
(JavaScript sources under `game/` plus `main.js`).

Shallow embedding conventions:
* JavaScript numbers are modelled as exact rationals (`ℚ`); hit points as `ℤ`
  (the code never clamps enemy hp, so negatives must be representable).
* `Math.hypot` produces irrational values on general inputs, so the functions
  that read it (`Enemy.update`, `EnemyProjectile.update`, pickup distance
  checks) are parameterized by a function `hyp : ℚ → ℚ → ℚ` standing for
  `Math.hypot`.  Theorems that depend on an actual distance value are
  instantiated at axis-aligned inputs, where `Math.hypot dx dy` is exactly
  `|dx|` (when `dy = 0`) or `|dy|` (when `dx = 0`); `hypAxis` below returns
  exactly those values on such inputs.
* `circleIntersectsRect` compares squared distances in the source
  (`dx*dx + dy*dy <= r*r`), so it is embedded exactly with no square root.
-/

/-- Exact values of `Math.hypot` on axis-aligned inputs: agrees with the real
`Math.hypot dx dy = √(dx² + dy²)` whenever `dx = 0` or `dy = 0`.  All concrete
evaluations in this file only query it at such inputs. -/
def hypAxis (dx dy : ℚ) : ℚ :=
  if dx = 0 then |dy| else if dy = 0 then |dx| else 0

/-! ## World grid (`game/tilemap.js`, Tiled variant)

`TileMap` stores world pixel bounds and the list of solid collider
rectangles read from the map's "Colliders" object layer.  The collision
query `isBlockedAtWorld` is the contract used by all movement code. -/

/-- A collider rectangle from the Tiled "Colliders" layer
(`{x, y, w, h, type}`; only `type === "solid"` blocks). -/
structure Collider where
  x : ℚ
  y : ℚ
  w : ℚ
  h : ℚ
  solid : Bool
  deriving Repr, DecidableEq

/-- The world grid: pixel bounds plus solid collider rectangles
(`TileMap.WORLD_W/WORLD_H/tiledColliders`). -/
structure TileMap where
  WORLD_W : ℚ
  WORLD_H : ℚ
  tiledColliders : List Collider
  deriving Repr

/-- `TileMap._pointHitsSolidCollider(x, y)`: true if the point lies inside any
collider rectangle whose type is `"solid"`
(`x >= r.x && x < r.x + r.w && y >= r.y && y < r.y + r.h`). -/
def TileMap.pointHitsSolidCollider (m : TileMap) (x y : ℚ) : Bool :=
  m.tiledColliders.any fun r =>
    r.solid && decide (r.x ≤ x) && decide (x < r.x + r.w)
      && decide (r.y ≤ y) && decide (y < r.y + r.h)

/-- `TileMap.isBlockedAtWorld(x, y)`: out-of-bounds points are always blocked,
otherwise a point is blocked exactly when it hits a solid collider. -/
def TileMap.isBlockedAtWorld (m : TileMap) (x y : ℚ) : Bool :=
  if x < 0 || y < 0 || x ≥ m.WORLD_W || y ≥ m.WORLD_H then true
  else m.pointHitsSolidCollider x y

/-! ## Camera (`game/camera.js`) -/

/-- Camera state: position, viewport size, world size. -/
structure Camera where
  x : ℚ
  y : ℚ
  viewW : ℚ
  viewH : ℚ
  worldW : ℚ
  worldH : ℚ
  deriving Repr

/-- `Camera.clamp(v, min, max) = Math.max(min, Math.min(max, v))`. -/
def Camera.clamp (v lo hi : ℚ) : ℚ :=
  max lo (min hi v)

/-- `Camera.follow(targetX, targetY)`: centers the viewport on the target,
each axis clamped to `[0, worldDimension − viewportDimension]`. -/
def Camera.follow (c : Camera) (targetX targetY : ℚ) : Camera :=
  { c with
    x := Camera.clamp (targetX - c.viewW / 2) 0 (c.worldW - c.viewW)
    y := Camera.clamp (targetY - c.viewH / 2) 0 (c.worldH - c.viewH) }

/-- `get renderX() { return Math.floor(this.x); }` -/
def Camera.renderX (c : Camera) : ℤ := ⌊c.x⌋

/-- `get renderY() { return Math.floor(this.y); }` -/
def Camera.renderY (c : Camera) : ℤ := ⌊c.y⌋

lemma Camera.clamp_mem (v lo hi : ℚ) (h : lo ≤ hi) :
    lo ≤ Camera.clamp v lo hi ∧ Camera.clamp v lo hi ≤ hi := by
  unfold Camera.clamp
  constructor
  · exact le_max_left _ _
  · exact max_le h (min_le_left _ _)

lemma Camera.clamp_of_hi_lt_lo (v lo hi : ℚ) (h : hi < lo) :
    Camera.clamp v lo hi = lo := by
  unfold Camera.clamp
  exact max_eq_left ((min_le_left hi v).trans h.le)

/-- C9: after `camera.follow(targetX, targetY)`, each axis lies in
`[0, worldDimension − viewportDimension]` when the world is at least as large
as the viewport; when the world is smaller on an axis the clamp collapses that
axis to `0`; `renderX`/`renderY` are the floor of the position. -/
theorem camera_follow_containment (c : Camera) (tx ty : ℚ)
    (hw : c.viewW ≤ c.worldW) (hh : c.viewH ≤ c.worldH) :
    (0 ≤ (c.follow tx ty).x ∧ (c.follow tx ty).x ≤ c.worldW - c.viewW) ∧
    (0 ≤ (c.follow tx ty).y ∧ (c.follow tx ty).y ≤ c.worldH - c.viewH) ∧
    (∀ c' : Camera, c'.worldW - c'.viewW < 0 → (c'.follow tx ty).x = 0) ∧
    (∀ c' : Camera, c'.worldH - c'.viewH < 0 → (c'.follow tx ty).y = 0) ∧
    (c.follow tx ty).renderX = ⌊(c.follow tx ty).x⌋ ∧
    (c.follow tx ty).renderY = ⌊(c.follow tx ty).y⌋ := by
  refine ⟨?_, ?_, ?_, ?_, rfl, rfl⟩
  · exact Camera.clamp_mem _ _ _ (by linarith)
  · exact Camera.clamp_mem _ _ _ (by linarith)
  · intro c' h
    exact Camera.clamp_of_hi_lt_lo _ _ _ h
  · intro c' h
    exact Camera.clamp_of_hi_lt_lo _ _ _ h

/-- Witness for `camera_follow_containment` at a concrete camera
(1024×768 viewport inside a 3840×2560 world, target (100, 2600)). -/
theorem camera_follow_containment_witness :
    ((1024 : ℚ) ≤ 3840 ∧ (768 : ℚ) ≤ 2560) ∧
    (0 ≤ ((Camera.mk 0 0 1024 768 3840 2560).follow 100 2600).x ∧
      ((Camera.mk 0 0 1024 768 3840 2560).follow 100 2600).x ≤ 3840 - 1024) := by
  have h := camera_follow_containment (Camera.mk 0 0 1024 768 3840 2560) 100 2600
    (by norm_num) (by norm_num)
  exact ⟨⟨by norm_num, by norm_num⟩, h.1⟩

/-! ## Player (`game/player.js`, the feature-complete dual-attack version)

State fields and constants follow the `Player` constructor.  The engine
callback `game.triggerGameOver()` invoked by `die()` is outside the entity
core and is not part of the player state. -/

/-- Facing direction (`this.dir`: "up" / "down" / "left" / "right"). -/
inductive Dir where
  | up | down | left | right
  deriving Repr, DecidableEq

/-- Animation state component of `this.animKey` ("idle_down", "attack_left", …). -/
inductive PAnim where
  | idle | walk | attack | attack2
  deriving Repr, DecidableEq

/-- Player state (`game/player.js` constructor). -/
structure Player where
  x : ℚ
  y : ℚ
  dir : Dir
  moving : Bool
  attacking : Bool
  attackHeld : Bool
  attackDidHit : Bool
  attacking2 : Bool
  attack2Held : Bool
  attack2DidHit : Bool
  attack2HitSet : List ℕ
  isDead : Bool
  maxHp : ℤ
  hp : ℤ
  hurtInvuln : ℚ
  flashTimer : ℚ
  knockVX : ℚ
  knockVY : ℚ
  attackCooldown : ℚ
  attack2Cooldown : ℚ
  animElapsed : ℚ
  animState : PAnim
  animDir : Dir
  deriving Repr, DecidableEq

namespace Player

/-- `this.SPEED = 3` -/
def SPEED : ℚ := 3
/-- `this.DRAW_SIZE = 128` -/
def DRAW_SIZE : ℚ := 128
/-- `this.IFRAMES = 0.6` -/
def IFRAMES : ℚ := 6/10
/-- `this.KNOCK = 6.0` -/
def KNOCK : ℚ := 6
/-- `this.KNOCK_DAMP = 0.75` -/
def KNOCK_DAMP : ℚ := 3/4
/-- `this.FOOT_OFFSET_Y = 18` -/
def FOOT_OFFSET_Y : ℚ := 18
/-- `this.FOOT_RADIUS = 12` -/
def FOOT_RADIUS : ℚ := 12
/-- `this.attackCooldownTime = 0.1` -/
def attackCooldownTime : ℚ := 1/10
/-- `this.attack2CooldownTime = 10.0` -/
def attack2CooldownTime : ℚ := 10
/-- attack-1 animation config: `frames: 8, ft: 0.07` -/
def attackFrames : ℕ := 8
/-- attack-1 per-frame duration -/
def attackFt : ℚ := 7/100
/-- attack-2 animation config: `frames: 8, ft: 0.045` -/
def attack2Frames : ℕ := 8
/-- attack-2 per-frame duration -/
def attack2Ft : ℚ := 45/1000

/-- A freshly constructed player at a given spawn point
(`maxHp = 15`, `hp = maxHp`, all flags clear). -/
def init (spawnX spawnY : ℚ) : Player where
  x := spawnX
  y := spawnY
  dir := .down
  moving := false
  attacking := false
  attackHeld := false
  attackDidHit := false
  attacking2 := false
  attack2Held := false
  attack2DidHit := false
  attack2HitSet := []
  isDead := false
  maxHp := 15
  hp := 15
  hurtInvuln := 0
  flashTimer := 0
  knockVX := 0
  knockVY := 0
  attackCooldown := 0
  attack2Cooldown := 0
  animElapsed := 0
  animState := .idle
  animDir := .down

/-- `clamp(v, min, max) = Math.max(min, Math.min(max, v))` -/
def clamp (v lo hi : ℚ) : ℚ :=
  max lo (min hi v)

/-- `getFeetPointAt(x, y)`: the collision anchor, a bit below center. -/
def getFeetPointAt (x y : ℚ) : ℚ × ℚ :=
  (x, y + FOOT_OFFSET_Y)

/-- `canStandAt(x, y)`: the feet point plus four offset samples at
`FOOT_RADIUS` must all be unblocked. -/
def canStandAt (m : TileMap) (x y : ℚ) : Bool :=
  let fx := (getFeetPointAt x y).1
  let fy := (getFeetPointAt x y).2
  let r := FOOT_RADIUS
  !(m.isBlockedAtWorld fx fy || m.isBlockedAtWorld (fx - r) fy
    || m.isBlockedAtWorld (fx + r) fy || m.isBlockedAtWorld fx (fy - r)
    || m.isBlockedAtWorld fx (fy + r))

/-- `die()`: marks the player dead and stops attacks/movement.
(The `game.triggerGameOver()` call is an engine-side effect.) -/
def die (p : Player) : Player :=
  { p with isDead := true, attacking := false, attacking2 := false, moving := false }

/-- `takeDamage(amount, fromX, fromY)`: guarded by death and the i-frame
timer; applies damage with floor 0, starts i-frames and flash, cancels both
attacks, and sets knockback away from the source when one is given
(`len = Math.hypot(dx, dy) || 1`). -/
def takeDamage (hyp : ℚ → ℚ → ℚ) (amount : ℤ) (src : Option (ℚ × ℚ))
    (p : Player) : Player :=
  if p.isDead || p.hp ≤ 0 then p
  else if p.hurtInvuln > 0 then p
  else
    let p1 := { p with
      hp := max 0 (p.hp - amount)
      hurtInvuln := IFRAMES
      flashTimer := IFRAMES
      attacking := false
      attacking2 := false
      attackDidHit := false
      attack2DidHit := false
      attack2HitSet := [] }
    let p2 : Player := match src with
      | some (fromX, fromY) =>
          let dx := p1.x - fromX
          let dy := p1.y - fromY
          let len := if hyp dx dy = 0 then 1 else hyp dx dy
          { p1 with knockVX := dx / len * KNOCK, knockVY := dy / len * KNOCK }
      | none => p1
    if p2.hp = 0 then p2.die else p2

/-- `heal(amount)`: clamped to `maxHp`, ignored when dead. -/
def heal (amount : ℤ) (p : Player) : Player :=
  if p.isDead then p
  else { p with hp := min p.maxHp (p.hp + amount) }

/-- Per-axis walk/knockback X move (`player.js` update): only commit the
attempted position when `canStandAt` accepts it. -/
def moveAxisX (m : TileMap) (stepX : ℚ) (p : Player) : Player :=
  if stepX ≠ 0 then
    let tryX := p.x + stepX
    if canStandAt m tryX p.y then { p with x := tryX } else p
  else p

/-- Per-axis walk/knockback Y move (`player.js` update). -/
def moveAxisY (m : TileMap) (stepY : ℚ) (p : Player) : Player :=
  if stepY ≠ 0 then
    let tryY := p.y + stepY
    if canStandAt m p.x tryY then { p with y := tryY } else p
  else p

/-- Knockback block of `update()`: when the knock velocity is non-negligible,
try each axis (unconditionally, no `step != 0` guard) and damp by
`KNOCK_DAMP`. -/
def knockbackStep (m : TileMap) (p : Player) : Player :=
  if |p.knockVX| > 1/100 || |p.knockVY| > 1/100 then
    let p1 :=
      let tryX := p.x + p.knockVX
      if canStandAt m tryX p.y then { p with x := tryX } else p
    let p2 :=
      let tryY := p1.y + p1.knockVY
      if canStandAt m p1.x tryY then { p1 with y := tryY } else p1
    { p2 with knockVX := p2.knockVX * KNOCK_DAMP, knockVY := p2.knockVY * KNOCK_DAMP }
  else p

/-- World-bounds clamp at the end of movement resolution
(`this.x = clamp(this.x, half, WORLD_W - half)`). -/
def boundsClamp (m : TileMap) (p : Player) : Player :=
  let half := DRAW_SIZE / 2
  { p with
    x := clamp p.x half (m.WORLD_W - half)
    y := clamp p.y half (m.WORLD_H - half) }

end Player

/-- C5: a `takeDamage` call on the player while the invulnerability timer is
positive has zero effect: the entire player state (hp, knockback velocity,
timers, flags) is returned unchanged. -/
theorem player_takeDamage_iframe_noop (hyp : ℚ → ℚ → ℚ) (amount : ℤ)
    (src : Option (ℚ × ℚ)) (p : Player) (h : p.hurtInvuln > 0) :
    Player.takeDamage hyp amount src p = p := by
  unfold Player.takeDamage
  rw [if_pos h]
  split <;> rfl

/-- Witness for `player_takeDamage_iframe_noop`: a live player with
`hurtInvuln = 0.3` takes a 2-damage hit from a source at (0, 0) and is
entirely unchanged. -/
theorem player_takeDamage_iframe_noop_witness :
    ({ Player.init 100 100 with hurtInvuln := 3/10 } : Player).hurtInvuln > 0 ∧
    Player.takeDamage hypAxis 2 (some (0, 0))
      { Player.init 100 100 with hurtInvuln := 3/10 }
      = { Player.init 100 100 with hurtInvuln := 3/10 } := by
  refine ⟨by norm_num, ?_⟩
  exact player_takeDamage_iframe_noop hypAxis 2 (some (0, 0)) _ (by norm_num)

/-! ## Enemy (`game/enemy.js`, data-driven version cited by the claims)

Stats and animation clip lengths come from `EnemyCreator` definitions
(`game/enemy_creator.js`); `Enemy.update` returns the new state together
with a flag recording whether `player.takeDamage` was invoked this tick. -/

/-- Enemy animation/behavior state (`this.state`). -/
inductive EState where
  | idle | walk | attack | hurt | die
  deriving Repr, DecidableEq

/-- Per-type tuning read from `opts.stats` and the `opts.anim` clip data.
Only the fields `Enemy` reads are kept (sprite paths etc. are draw-only). -/
structure EnemyStats where
  speed : ℚ
  hp : ℤ
  attackHitRadius : ℚ
  attackCooldownDefault : ℚ
  stopDist : ℚ
  attackRange : ℚ
  attackFrames : ℕ
  attackFt : ℚ
  hurtFrames : ℕ
  hurtFt : ℚ
  dieFrames : ℕ
  dieFt : ℚ
  deriving Repr, DecidableEq

/-- `EnemyCreator.TYPES.skeletonWhite` (stats + clip lengths). -/
def skeletonWhiteStats : EnemyStats where
  speed := 3/2
  hp := 3
  attackHitRadius := 45
  attackCooldownDefault := 9/10
  stopDist := 44
  attackRange := 58
  attackFrames := 10
  attackFt := 7/100
  hurtFrames := 5
  hurtFt := 1/10
  dieFrames := 13
  dieFt := 9/100

/-- Enemy runtime state (`game/enemy.js` constructor). -/
structure Enemy where
  asleep : Bool
  hp : ℤ
  state : EState
  animElapsed : ℚ
  hurtLocked : Bool
  dead : Bool
  removeFromWorld : Bool
  facingLeft : Bool
  attackLocked : Bool
  attackDidHit : Bool
  attackCooldown : ℚ
  x : ℚ
  y : ℚ
  deriving Repr, DecidableEq

namespace Enemy

/-- A freshly constructed enemy of the given type at a spawn point
(`state = "idle"`, all locks clear, cooldown 0, `asleep` as configured). -/
def init (st : EnemyStats) (x y : ℚ) (asleep : Bool) : Enemy where
  asleep := asleep
  hp := st.hp
  state := .idle
  animElapsed := 0
  hurtLocked := false
  dead := false
  removeFromWorld := false
  facingLeft := true
  attackLocked := false
  attackDidHit := false
  attackCooldown := 0
  x := x
  y := y

/-- `getCollisionAABBAt(x, y)`: 26×26 box centered on the position,
returned as `(left, top, w, h)`. -/
def getCollisionAABBAt (x y : ℚ) : ℚ × ℚ × ℚ × ℚ :=
  (x - 26/2, y - 26/2, 26, 26)

/-- `Player.getCollisionAABBAt(x, y)` (`game/player.js`): 24×24 box, shifted
12 px down to match the feet. -/
def playerCollisionAABBAt (x y : ℚ) : ℚ × ℚ × ℚ × ℚ :=
  (x - 24/2, (y + 12) - 24/2, 24, 24)

/-- `takeDamage(amount)`: ignored while dead or hurt-locked; otherwise
subtracts (no floor at 0) and enters `die` or `hurt`. -/
def takeDamage (amount : ℤ) (e : Enemy) : Enemy :=
  if e.dead || e.hurtLocked then e
  else
    let hp := e.hp - amount
    if hp ≤ 0 then
      { e with hp := hp, dead := true, state := .die, animElapsed := 0
               attackLocked := false, hurtLocked := false }
    else
      { e with hp := hp, state := .hurt, animElapsed := 0
               hurtLocked := true, attackLocked := false }

/-- `startAttack()`: enters the attack animation, resets the one-hit flag,
and arms the cooldown. -/
def startAttack (st : EnemyStats) (e : Enemy) : Enemy :=
  { e with state := .attack, animElapsed := 0, attackLocked := true
           attackDidHit := false, attackCooldown := st.attackCooldownDefault }

/-- `isPlayerInAttackRadius()`: distance to the player compared against
`attackHitRadius` plus a padding derived from both collision boxes
(`(max enemyBox + max playerBox) * 0.25`). -/
def isPlayerInAttackRadius (st : EnemyStats) (hyp : ℚ → ℚ → ℚ)
    (px py : ℚ) (e : Enemy) : Bool :=
  let dist := hyp (px - e.x) (py - e.y)
  let enemyBox := getCollisionAABBAt e.x e.y
  let playerBox := playerCollisionAABBAt px py
  let pad := (max enemyBox.2.2.1 enemyBox.2.2.2 + max playerBox.2.2.1 playerBox.2.2.2) * (1/4)
  decide (dist ≤ st.attackHitRadius + pad)

/-- `if (this.attackCooldown > 0) this.attackCooldown = Math.max(0, this.attackCooldown - dt);` -/
def tickCooldown (dt : ℚ) (e : Enemy) : Enemy :=
  if e.attackCooldown > 0 then
    { e with attackCooldown := max 0 (e.attackCooldown - dt) }
  else e

/-- DIE branch of `update()`: advance the die clip; flag for removal once its
total duration has elapsed. -/
def dieTick (st : EnemyStats) (dt : ℚ) (e : Enemy) : Enemy :=
  let ae := e.animElapsed + dt
  { e with animElapsed := ae
           removeFromWorld :=
             if ae ≥ (st.dieFrames : ℚ) * st.dieFt then true
             else e.removeFromWorld }

/-- HURT branch of `update()`: locked animation; return to idle when the
hurt clip finishes. -/
def hurtTick (st : EnemyStats) (dt : ℚ) (e : Enemy) : Enemy :=
  let ae := e.animElapsed + dt
  if ae ≥ (st.hurtFrames : ℚ) * st.hurtFt then
    { e with hurtLocked := false, state := .idle, animElapsed := 0 }
  else
    { e with animElapsed := ae }

/-- ATTACK branch of `update()`: hit window on frames 3–5 guarded by the
one-hit flag; unlock when the clip finishes.  The returned flag is true when
`player.takeDamage(1, this.x, this.y)` was called this tick. -/
def attackTick (st : EnemyStats) (hyp : ℚ → ℚ → ℚ) (px py dt : ℚ)
    (e : Enemy) : Enemy × Bool :=
  let ae := e.animElapsed + dt
  let frame : ℤ := ⌊ae / st.attackFt⌋
  let e1 := { e with animElapsed := ae }
  let hit := !e1.attackDidHit && decide (3 ≤ frame) && decide (frame ≤ 5)
               && isPlayerInAttackRadius st hyp px py e1
  let e2 := if hit then { e1 with attackDidHit := true } else e1
  if ae ≥ (st.attackFrames : ℚ) * st.attackFt then
    ({ e2 with attackLocked := false, state := .idle, animElapsed := 0 }, hit)
  else
    (e2, hit)

/-- CHASE branch of `update()`: face the player, start an attack when in
range with the cooldown expired, otherwise walk toward the player (the move
is applied with no collision query) or idle at `stopDist`. -/
def chaseTick (st : EnemyStats) (hyp : ℚ → ℚ → ℚ) (px py dt : ℚ)
    (e : Enemy) : Enemy :=
  let dx := px - e.x
  let dy := py - e.y
  let dist := hyp dx dy
  let e := { e with facingLeft := dx < 0 }
  if dist ≤ st.attackRange ∧ e.attackCooldown = 0 then
    startAttack st e
  else if dist > st.stopDist then
    { e with x := e.x + dx / dist * st.speed, y := e.y + dy / dist * st.speed
             state := .walk, animElapsed := e.animElapsed + dt }
  else
    { e with state := .idle, animElapsed := e.animElapsed + dt }

/-- `update()` (`game/enemy.js`): asleep → idle only; else tick the cooldown,
then run exactly one of the die / hurt / attack / chase branches.  The
returned flag is true when `player.takeDamage(1, this.x, this.y)` was
called. -/
def update (st : EnemyStats) (hyp : ℚ → ℚ → ℚ) (px py dt : ℚ)
    (e : Enemy) : Enemy × Bool :=
  if e.asleep then
    ({ e with state := .idle, animElapsed := e.animElapsed + dt }, false)
  else
    let e := tickCooldown dt e
    if e.dead then (dieTick st dt e, false)
    else if e.hurtLocked then (hurtTick st dt e, false)
    else if e.attackLocked then attackTick st hyp px py dt e
    else (chaseTick st hyp px py dt e, false)

lemma tickCooldown_fields (dt : ℚ) (e : Enemy) :
    (tickCooldown dt e).asleep = e.asleep ∧
    (tickCooldown dt e).hp = e.hp ∧
    (tickCooldown dt e).dead = e.dead ∧
    (tickCooldown dt e).hurtLocked = e.hurtLocked ∧
    (tickCooldown dt e).attackLocked = e.attackLocked ∧
    (tickCooldown dt e).attackDidHit = e.attackDidHit ∧
    (tickCooldown dt e).state = e.state ∧
    (tickCooldown dt e).animElapsed = e.animElapsed ∧
    (tickCooldown dt e).removeFromWorld = e.removeFromWorld ∧
    (tickCooldown dt e).x = e.x ∧ (tickCooldown dt e).y = e.y := by
  unfold tickCooldown
  split_ifs <;> simp

end Enemy

/-- C10: a `takeDamage` call on an enemy whose hurt lock is active is a
complete no-op (the whole state is returned unchanged); a surviving hit
enters the hurt lock; and `update` keeps the lock for the full hurt
animation duration, so the enemy is invulnerable throughout the hurt
recovery window. -/
theorem enemy_hurtLock_invulnerable :
    (∀ (amount : ℤ) (e : Enemy), e.hurtLocked = true →
      Enemy.takeDamage amount e = e) ∧
    (∀ (amount : ℤ) (e : Enemy), e.dead = false → e.hurtLocked = false →
      0 < e.hp - amount → (Enemy.takeDamage amount e).hurtLocked = true) ∧
    (∀ (st : EnemyStats) (hyp : ℚ → ℚ → ℚ) (px py dt : ℚ) (e : Enemy),
      e.asleep = false → e.dead = false → e.hurtLocked = true →
      e.animElapsed + dt < (st.hurtFrames : ℚ) * st.hurtFt →
      ((Enemy.update st hyp px py dt e).1).hurtLocked = true) := by
  refine ⟨?_, ?_, ?_⟩
  · intro amount e h
    unfold Enemy.takeDamage
    simp [h]
  · intro amount e hd hl hhp
    unfold Enemy.takeDamage
    simp only [hd, hl, Bool.or_self, Bool.false_eq_true, if_false]
    rw [if_neg (by omega)]
  · intro st hyp px py dt e ha hd hl hae
    have hf := Enemy.tickCooldown_fields dt e
    unfold Enemy.update
    rw [if_neg (by simp [ha]), if_neg (by simp [hf.2.2.1, hd]),
      if_pos (hf.2.2.2.1.trans hl)]
    show (Enemy.hurtTick st dt (Enemy.tickCooldown dt e)).hurtLocked = true
    unfold Enemy.hurtTick
    rw [hf.2.2.2.2.2.2.2.1, if_neg (by simpa using not_le_of_lt hae)]
    exact hf.2.2.2.1.trans hl

/-- Witness for `enemy_hurtLock_invulnerable`: a hurt-locked skeleton ignores
a 2-damage hit entirely; a fresh skeleton hit for 1 becomes hurt-locked; and
one 0.2 s tick (less than the 0.5 s hurt clip) keeps the lock. -/
theorem enemy_hurtLock_invulnerable_witness :
    (({ Enemy.init skeletonWhiteStats 50 50 false with
        hurtLocked := true, state := .hurt } : Enemy).hurtLocked = true ∧
      Enemy.takeDamage 2
        { Enemy.init skeletonWhiteStats 50 50 false with
          hurtLocked := true, state := .hurt }
        = { Enemy.init skeletonWhiteStats 50 50 false with
            hurtLocked := true, state := .hurt }) ∧
    (Enemy.takeDamage 1 (Enemy.init skeletonWhiteStats 50 50 false)).hurtLocked = true ∧
    ((Enemy.update skeletonWhiteStats hypAxis 300 50 (2/10)
        { Enemy.init skeletonWhiteStats 50 50 false with
          hurtLocked := true, state := .hurt }).1).hurtLocked = true := by
  refine ⟨⟨rfl, ?_⟩, ?_, ?_⟩
  · exact enemy_hurtLock_invulnerable.1 2 _ rfl
  · exact enemy_hurtLock_invulnerable.2.1 1 _ rfl rfl (by norm_num [Enemy.init, skeletonWhiteStats])
  · exact enemy_hurtLock_invulnerable.2.2 skeletonWhiteStats hypAxis 300 50 (2/10) _
      rfl rfl rfl (by norm_num [Enemy.init, skeletonWhiteStats])

/-! ## Enemy operation traces

The operations the running game applies to an enemy: its own `update` tick,
a `takeDamage` call from a player attack, and the external wake performed by
a key pickup (`guardEnemy.asleep = false` in `game/key.js`). -/

/-- One operation applied to an enemy by the running game. -/
inductive EOp where
  | tick (px py dt : ℚ)
  | damage (amount : ℤ)
  | wake
  deriving Repr

/-- Player attacks deal 1 (attack 1) or 2 (attack 2) damage
(`ent.takeDamage?.(1)` / `ent.takeDamage?.(2)` in `game/player.js`), so every
damage amount the program passes is at most 2. -/
def EOp.damageLe2 : EOp → Prop
  | .damage a => a ≤ 2
  | _ => True

/-- Apply one operation. -/
def Enemy.applyOp (st : EnemyStats) (hyp : ℚ → ℚ → ℚ) (op : EOp) (e : Enemy) : Enemy :=
  match op with
  | .tick px py dt => (Enemy.update st hyp px py dt e).1
  | .damage a => Enemy.takeDamage a e
  | .wake => { e with asleep := false }

/-- Apply a list of operations in order. -/
def Enemy.applyOps (st : EnemyStats) (hyp : ℚ → ℚ → ℚ) (ops : List EOp) (e : Enemy) : Enemy :=
  ops.foldl (fun e op => Enemy.applyOp st hyp op e) e

/-- Sleep safety: an asleep enemy is alive, and is either hurt-locked (so
further damage is ignored) or still at full-enough hp that no single ≤2 hit
can kill it.  All enemy types start with `hp ≥ 3`, so their initial states
satisfy this, and it is preserved by every program operation; hence a dead
enemy is never asleep. -/
def Enemy.SleepSafe (e : Enemy) : Prop :=
  e.asleep = true → e.dead = false ∧ (e.hurtLocked = true ∨ 3 ≤ e.hp)

/-- A run of update ticks (`(px, py, dt)` per tick). -/
def Enemy.runTicks (st : EnemyStats) (hyp : ℚ → ℚ → ℚ) :
    List (ℚ × ℚ × ℚ) → Enemy → Enemy
  | [], e => e
  | t :: ts, e => Enemy.runTicks st hyp ts (Enemy.update st hyp t.1 t.2.1 t.2.2 e).1

/-- Total game time of a tick list. -/
def sumDts (ts : List (ℚ × ℚ × ℚ)) : ℚ :=
  (ts.map fun t => t.2.2).sum

lemma sumDts_nonneg (ts : List (ℚ × ℚ × ℚ)) (h : ∀ t ∈ ts, 0 ≤ t.2.2) :
    0 ≤ sumDts ts := by
  induction ts with
  | nil => simp [sumDts]
  | cons t ts ih =>
      simp only [sumDts, List.map_cons, List.sum_cons]
      have h1 := h t (List.mem_cons_self t ts)
      have h2 := ih fun u hu => h u (List.mem_cons_of_mem t hu)
      simp only [sumDts] at h2
      linarith

lemma Enemy.dieTick_fields (st : EnemyStats) (dt : ℚ) (e : Enemy) :
    (Enemy.dieTick st dt e).asleep = e.asleep ∧
    (Enemy.dieTick st dt e).hp = e.hp ∧
    (Enemy.dieTick st dt e).dead = e.dead ∧
    (Enemy.dieTick st dt e).state = e.state ∧
    (Enemy.dieTick st dt e).hurtLocked = e.hurtLocked ∧
    (Enemy.dieTick st dt e).animElapsed = e.animElapsed + dt ∧
    ((Enemy.dieTick st dt e).removeFromWorld = true ↔
      (e.removeFromWorld = true ∨
        (st.dieFrames : ℚ) * st.dieFt ≤ e.animElapsed + dt)) := by
  unfold Enemy.dieTick
  dsimp only
  refine ⟨rfl, rfl, rfl, rfl, rfl, rfl, ?_⟩
  split_ifs with h
  · simp [ge_iff_le] at h
    simp [h]
  · simp [ge_iff_le] at h
    simp [h]

lemma Enemy.hurtTick_fields (st : EnemyStats) (dt : ℚ) (e : Enemy) :
    (Enemy.hurtTick st dt e).asleep = e.asleep ∧
    (Enemy.hurtTick st dt e).hp = e.hp ∧
    (Enemy.hurtTick st dt e).dead = e.dead ∧
    (Enemy.hurtTick st dt e).attackDidHit = e.attackDidHit := by
  unfold Enemy.hurtTick
  dsimp only
  split_ifs <;> simp

lemma Enemy.attackTick_fields (st : EnemyStats) (hyp : ℚ → ℚ → ℚ)
    (px py dt : ℚ) (e : Enemy) :
    ((Enemy.attackTick st hyp px py dt e).1).asleep = e.asleep ∧
    ((Enemy.attackTick st hyp px py dt e).1).hp = e.hp ∧
    ((Enemy.attackTick st hyp px py dt e).1).dead = e.dead ∧
    ((Enemy.attackTick st hyp px py dt e).1).hurtLocked = e.hurtLocked := by
  unfold Enemy.attackTick
  dsimp only
  split_ifs <;> simp

lemma Enemy.chaseTick_fields (st : EnemyStats) (hyp : ℚ → ℚ → ℚ)
    (px py dt : ℚ) (e : Enemy) :
    (Enemy.chaseTick st hyp px py dt e).asleep = e.asleep ∧
    (Enemy.chaseTick st hyp px py dt e).hp = e.hp ∧
    (Enemy.chaseTick st hyp px py dt e).dead = e.dead ∧
    (Enemy.chaseTick st hyp px py dt e).hurtLocked = e.hurtLocked := by
  unfold Enemy.chaseTick Enemy.startAttack
  dsimp only
  split_ifs <;> simp

lemma Enemy.update_fields (st : EnemyStats) (hyp : ℚ → ℚ → ℚ) (px py dt : ℚ)
    (e : Enemy) :
    ((Enemy.update st hyp px py dt e).1).asleep = e.asleep ∧
    ((Enemy.update st hyp px py dt e).1).hp = e.hp ∧
    ((Enemy.update st hyp px py dt e).1).dead = e.dead := by
  have hf := Enemy.tickCooldown_fields dt e
  unfold Enemy.update
  dsimp only
  split_ifs with h1 h2 h3 h4
  · exact ⟨rfl, rfl, rfl⟩
  · have := Enemy.dieTick_fields st dt (Enemy.tickCooldown dt e)
    exact ⟨this.1.trans hf.1, this.2.1.trans hf.2.1, this.2.2.1.trans hf.2.2.1⟩
  · have := Enemy.hurtTick_fields st dt (Enemy.tickCooldown dt e)
    exact ⟨this.1.trans hf.1, this.2.1.trans hf.2.1, this.2.2.1.trans hf.2.2.1⟩
  · have := Enemy.attackTick_fields st hyp px py dt (Enemy.tickCooldown dt e)
    exact ⟨this.1.trans hf.1, this.2.1.trans hf.2.1, this.2.2.1.trans hf.2.2.1⟩
  · have := Enemy.chaseTick_fields st hyp px py dt (Enemy.tickCooldown dt e)
    exact ⟨this.1.trans hf.1, this.2.1.trans hf.2.1, this.2.2.1.trans hf.2.2.1⟩

lemma Enemy.update_dead_fields (st : EnemyStats) (hyp : ℚ → ℚ → ℚ)
    (px py dt : ℚ) (e : Enemy) (ha : e.asleep = false) (hd : e.dead = true) :
    ((Enemy.update st hyp px py dt e).1).state = e.state ∧
    ((Enemy.update st hyp px py dt e).1).animElapsed = e.animElapsed + dt ∧
    ((Enemy.update st hyp px py dt e).1).hurtLocked = e.hurtLocked ∧
    (((Enemy.update st hyp px py dt e).1).removeFromWorld = true ↔
      (e.removeFromWorld = true ∨
        (st.dieFrames : ℚ) * st.dieFt ≤ e.animElapsed + dt)) := by
  have hf := Enemy.tickCooldown_fields dt e
  unfold Enemy.update
  rw [if_neg (by simp [ha]), if_pos (hf.2.2.1.trans hd)]
  have hdf := Enemy.dieTick_fields st dt (Enemy.tickCooldown dt e)
  refine ⟨hdf.2.2.2.1.trans hf.2.2.2.2.2.2.1, ?_, hdf.2.2.2.2.1.trans hf.2.2.2.1, ?_⟩
  · rw [hdf.2.2.2.2.2.1, hf.2.2.2.2.2.2.2.1]
  · rw [hdf.2.2.2.2.2.2, hf.2.2.2.2.2.2.2.2.1, hf.2.2.2.2.2.2.2.1]

lemma Enemy.takeDamage_sleepSafe (a : ℤ) (e : Enemy) (hs : e.SleepSafe)
    (ha : a ≤ 2) : (Enemy.takeDamage a e).SleepSafe := by
  unfold Enemy.takeDamage
  dsimp only
  split_ifs with h1 h2
  · exact hs
  · intro hsa
    exfalso
    simp only [Bool.or_eq_true, not_or, Bool.not_eq_true] at h1
    rcases hs hsa with ⟨-, hor⟩
    rcases hor with hl | hhp
    · rw [h1.2] at hl
      exact Bool.false_ne_true hl
    · omega
  · intro hsa
    simp only [Bool.or_eq_true, not_or, Bool.not_eq_true] at h1
    exact ⟨h1.1, Or.inl rfl⟩

lemma Enemy.update_sleepSafe (st : EnemyStats) (hyp : ℚ → ℚ → ℚ)
    (px py dt : ℚ) (e : Enemy) (hs : e.SleepSafe) :
    ((Enemy.update st hyp px py dt e).1).SleepSafe := by
  by_cases ha : e.asleep = true
  · unfold Enemy.update
    rw [if_pos ha]
    exact fun _ => hs ha
  · intro hcontra
    rw [(Enemy.update_fields st hyp px py dt e).1] at hcontra
    exact absurd hcontra ha

lemma Enemy.applyOp_sleepSafe (st : EnemyStats) (hyp : ℚ → ℚ → ℚ) (op : EOp)
    (e : Enemy) (hs : e.SleepSafe) (hop : op.damageLe2) :
    (Enemy.applyOp st hyp op e).SleepSafe := by
  cases op with
  | tick px py dt => exact Enemy.update_sleepSafe st hyp px py dt e hs
  | damage a => exact Enemy.takeDamage_sleepSafe a e hs hop
  | wake =>
      intro hcontra
      simp [Enemy.applyOp] at hcontra

lemma Enemy.applyOps_sleepSafe (st : EnemyStats) (hyp : ℚ → ℚ → ℚ)
    (ops : List EOp) (e : Enemy) (hs : e.SleepSafe)
    (hops : ∀ op ∈ ops, op.damageLe2) :
    (Enemy.applyOps st hyp ops e).SleepSafe := by
  induction ops generalizing e with
  | nil => exact hs
  | cons op ops ih =>
      exact ih (Enemy.applyOp st hyp op e)
        (Enemy.applyOp_sleepSafe st hyp op e hs (hops op (List.mem_cons_self op ops)))
        (fun u hu => hops u (List.mem_cons_of_mem op hu))

lemma Enemy.runTicks_dead (st : EnemyStats) (hyp : ℚ → ℚ → ℚ)
    (ts : List (ℚ × ℚ × ℚ)) (e : Enemy) (ha : e.asleep = false)
    (hd : e.dead = true) (hts : ∀ t ∈ ts, 0 ≤ t.2.2) :
    (Enemy.runTicks st hyp ts e).asleep = false ∧
    (Enemy.runTicks st hyp ts e).dead = true ∧
    (Enemy.runTicks st hyp ts e).state = e.state ∧
    (Enemy.runTicks st hyp ts e).hp = e.hp ∧
    ((Enemy.runTicks st hyp ts e).removeFromWorld = true ↔
      (e.removeFromWorld = true ∨
        (ts ≠ [] ∧ (st.dieFrames : ℚ) * st.dieFt ≤ e.animElapsed + sumDts ts))) ∧
    (Enemy.runTicks st hyp ts e).animElapsed = e.animElapsed + sumDts ts := by
  induction ts generalizing e with
  | nil => simp [Enemy.runTicks, sumDts, ha, hd]
  | cons t ts ih =>
      have hf := Enemy.update_fields st hyp t.1 t.2.1 t.2.2 e
      have hdf := Enemy.update_dead_fields st hyp t.1 t.2.1 t.2.2 e ha hd
      have ha1 : ((Enemy.update st hyp t.1 t.2.1 t.2.2 e).1).asleep = false :=
        hf.1.trans ha
      have hd1 : ((Enemy.update st hyp t.1 t.2.1 t.2.2 e).1).dead = true :=
        hf.2.2.trans hd
      have h0 : 0 ≤ t.2.2 := hts t (List.mem_cons_self t ts)
      have hts' : ∀ u ∈ ts, 0 ≤ u.2.2 := fun u hu => hts u (List.mem_cons_of_mem t hu)
      have hsum : 0 ≤ sumDts ts := sumDts_nonneg ts hts'
      obtain ⟨ih1, ih2, ih3, ih4, ih5, ih6⟩ :=
        ih (Enemy.update st hyp t.1 t.2.1 t.2.2 e).1 ha1 hd1 hts'
      have hrun : Enemy.runTicks st hyp (t :: ts) e
          = Enemy.runTicks st hyp ts (Enemy.update st hyp t.1 t.2.1 t.2.2 e).1 := rfl
      have hsums : sumDts (t :: ts) = t.2.2 + sumDts ts := by
        simp [sumDts]
      rw [hrun, hsums]
      refine ⟨ih1, ih2, ih3.trans hdf.1, ih4.trans hf.2.1, ?_, ?_⟩
      · rw [ih5, hdf.2.2.2, hdf.2.1]
        constructor
        · rintro ((hr | hr) | ⟨-, hr⟩)
          · exact Or.inl hr
          · exact Or.inr ⟨by simp, by linarith⟩
          · exact Or.inr ⟨by simp, by linarith⟩
        · rintro (hr | ⟨-, hr⟩)
          · exact Or.inl (Or.inl hr)
          · by_cases hts0 : ts = []
            · have hs0 : sumDts ts = 0 := by simp [hts0, sumDts]
              rw [hs0] at hr
              exact Or.inl (Or.inr (by linarith))
            · exact Or.inr ⟨hts0, by linarith⟩
      · rw [ih6, hdf.2.1]
        ring

lemma Player.takeDamage_dead_noop (hyp : ℚ → ℚ → ℚ) (amount : ℤ)
    (src : Option (ℚ × ℚ)) (p : Player) (h : p.isDead = true) :
    Player.takeDamage hyp amount src p = p := by
  unfold Player.takeDamage
  rw [if_pos (by simp [h])]

/-- C2: once an enemy's hp reaches 0 and the Die state is entered, every
subsequent `takeDamage` call returns the state unchanged (no Hurt
re-trigger); `update` keeps it in the `die` state; it is flagged for removal
exactly when the death animation's total duration (`frames × ft`) has
elapsed; and death implies awake along every program trace (damage amounts
the program passes are ≤ 2, every enemy type starts with hp ≥ 3, so
`SleepSafe` is a trace invariant justifying the `asleep = false`
hypotheses).  The player analogue: `takeDamage` on a dead player is a
no-op. -/
theorem enemy_death_idempotent_terminal :
    (∀ (st : EnemyStats) (hyp : ℚ → ℚ → ℚ) (ops : List EOp) (e : Enemy),
      e.SleepSafe → (∀ op ∈ ops, op.damageLe2) →
      (Enemy.applyOps st hyp ops e).SleepSafe) ∧
    (∀ (e : Enemy), e.SleepSafe → e.dead = true → e.asleep = false) ∧
    (∀ (amount : ℤ) (e : Enemy), e.dead = true →
      Enemy.takeDamage amount e = e) ∧
    (∀ (hyp : ℚ → ℚ → ℚ) (amount : ℤ) (src : Option (ℚ × ℚ)) (p : Player),
      p.isDead = true → Player.takeDamage hyp amount src p = p) ∧
    (∀ (st : EnemyStats) (hyp : ℚ → ℚ → ℚ) (px py dt : ℚ) (e : Enemy),
      e.dead = true → e.asleep = false →
      ((Enemy.update st hyp px py dt e).1).state = e.state ∧
      ((Enemy.update st hyp px py dt e).1).dead = true) ∧
    (∀ (st : EnemyStats) (hyp : ℚ → ℚ → ℚ) (ts : List (ℚ × ℚ × ℚ)) (e : Enemy),
      e.dead = true → e.asleep = false → e.animElapsed = 0 →
      e.removeFromWorld = false → (∀ t ∈ ts, 0 ≤ t.2.2) →
      ((Enemy.runTicks st hyp ts e).state = e.state ∧
       ((Enemy.runTicks st hyp ts e).removeFromWorld = true ↔
         (ts ≠ [] ∧ (st.dieFrames : ℚ) * st.dieFt ≤ sumDts ts)))) := by
  refine ⟨Enemy.applyOps_sleepSafe, ?_, ?_, Player.takeDamage_dead_noop, ?_, ?_⟩
  · intro e hs hd
    by_cases ha : e.asleep = true
    · exact absurd hd (by simp [(hs ha).1])
    · simpa using ha
  · intro amount e hd
    unfold Enemy.takeDamage
    rw [if_pos (by simp [hd])]
  · intro st hyp px py dt e hd ha
    exact ⟨(Enemy.update_dead_fields st hyp px py dt e ha hd).1,
      (Enemy.update_fields st hyp px py dt e).2.2.trans hd⟩
  · intro st hyp ts e hd ha hae hrm hts
    obtain ⟨-, -, h3, -, h5, -⟩ := Enemy.runTicks_dead st hyp ts e ha hd hts
    refine ⟨h3, ?_⟩
    rw [h5, hrm, hae]
    simp

/-- Witness for `enemy_death_idempotent_terminal`: an asleep skeleton guard
surviving the program's damage pattern stays sleep-safe; damage to a dead
skeleton is a no-op; damage to a dead player is a no-op; update keeps a dead
skeleton in `die`; and a run totalling the die clip length (13 × 0.09 s)
flags it for removal. -/
theorem enemy_death_idempotent_terminal_witness :
    (Enemy.applyOps skeletonWhiteStats hypAxis
        [EOp.damage 2, EOp.tick 300 50 (1/2), EOp.damage 2]
        (Enemy.init skeletonWhiteStats 50 50 true)).SleepSafe ∧
    Enemy.takeDamage 2
        { Enemy.init skeletonWhiteStats 50 50 false with dead := true, state := .die }
      = { Enemy.init skeletonWhiteStats 50 50 false with dead := true, state := .die } ∧
    Player.takeDamage hypAxis 1 none { Player.init 100 100 with isDead := true }
      = { Player.init 100 100 with isDead := true } ∧
    ((Enemy.update skeletonWhiteStats hypAxis 300 50 (1/10)
        { Enemy.init skeletonWhiteStats 50 50 false with
          dead := true, state := .die }).1).state = EState.die ∧
    (Enemy.runTicks skeletonWhiteStats hypAxis [(300, 50, 117/100)]
        { Enemy.init skeletonWhiteStats 50 50 false with
          dead := true, state := .die }).removeFromWorld = true := by
  refine ⟨?_, ?_, ?_, ?_, ?_⟩
  · exact enemy_death_idempotent_terminal.1 skeletonWhiteStats hypAxis _ _
      (fun _ => ⟨rfl, Or.inr (by norm_num [Enemy.init, skeletonWhiteStats])⟩)
      (by intro op hop; fin_cases hop <;> simp [EOp.damageLe2])
  · exact enemy_death_idempotent_terminal.2.2.1 2 _ rfl
  · exact enemy_death_idempotent_terminal.2.2.2.1 hypAxis 1 none _ rfl
  · exact (enemy_death_idempotent_terminal.2.2.2.2.1 skeletonWhiteStats hypAxis
      300 50 (1/10) _ rfl rfl).1
  · have h := enemy_death_idempotent_terminal.2.2.2.2.2 skeletonWhiteStats hypAxis
      [(300, 50, 117/100)]
      { Enemy.init skeletonWhiteStats 50 50 false with dead := true, state := .die }
      rfl rfl rfl rfl
      (by intro t ht; fin_cases ht; norm_num)
    exact h.2.mpr ⟨by simp, by norm_num [sumDts, skeletonWhiteStats]⟩

/-! ## Health command sequences (claim C1)

The operations that touch the player's hp in the sources: enemy /
projectile damage (`player.takeDamage`), an explicit heal (`player.heal`),
and the heart pickup's direct clamped heal (`HeartPickup.onPickup` in
`game/resource_pickup.js`). -/

/-- `HeartPickup.onPickup` effect on the player:
`this.player.hp = Math.min(this.player.maxHp, this.player.hp + 1)`
(applied with no dead-guard). -/
def Player.heartHeal (p : Player) : Player :=
  { p with hp := min p.maxHp (p.hp + 1) }

/-- One hp-relevant operation on the player. -/
inductive PCmd where
  | damage (amount : ℤ) (src : Option (ℚ × ℚ))
  | heal (amount : ℤ)
  | heartPickup
  deriving Repr

/-- All damage/heal amounts the program passes are nonnegative
(damage 1 from melee and projectiles, heal +1 from hearts). -/
def PCmd.nonneg : PCmd → Prop
  | .damage a _ => 0 ≤ a
  | .heal a => 0 ≤ a
  | .heartPickup => True

/-- Apply one hp-relevant operation. -/
def Player.applyCmd (hyp : ℚ → ℚ → ℚ) (c : PCmd) (p : Player) : Player :=
  match c with
  | .damage a src => Player.takeDamage hyp a src p
  | .heal a => Player.heal a p
  | .heartPickup => Player.heartHeal p

/-- Apply a sequence of hp-relevant operations in order. -/
def Player.applyCmds (hyp : ℚ → ℚ → ℚ) (cs : List PCmd) (p : Player) : Player :=
  cs.foldl (fun p c => Player.applyCmd hyp c p) p

/-- The health invariant `0 ≤ hp ≤ maxHp`. -/
def Player.hpInv (p : Player) : Prop :=
  0 ≤ p.hp ∧ p.hp ≤ p.maxHp

lemma Player.takeDamage_hp (hyp : ℚ → ℚ → ℚ) (a : ℤ) (src : Option (ℚ × ℚ))
    (p : Player) :
    ((Player.takeDamage hyp a src p).hp = p.hp ∧
      (Player.takeDamage hyp a src p).maxHp = p.maxHp) ∨
    (0 < p.hp ∧ (Player.takeDamage hyp a src p).hp = max 0 (p.hp - a) ∧
      (Player.takeDamage hyp a src p).maxHp = p.maxHp) := by
  unfold Player.takeDamage
  cases src with
  | none =>
      dsimp only
      split_ifs with h1 h2 h3 <;>
        first
          | exact Or.inl ⟨rfl, rfl⟩
          | (simp only [Bool.or_eq_true, decide_eq_true_eq, not_or, not_le] at h1
             exact Or.inr ⟨h1.2, rfl, rfl⟩)
  | some q =>
      dsimp only
      split_ifs with h1 h2 h3 <;>
        first
          | exact Or.inl ⟨rfl, rfl⟩
          | (simp only [Bool.or_eq_true, decide_eq_true_eq, not_or, not_le] at h1
             exact Or.inr ⟨h1.2, rfl, rfl⟩)

lemma Player.applyCmd_hpInv (hyp : ℚ → ℚ → ℚ) (c : PCmd) (p : Player)
    (hinv : p.hpInv) (hc : c.nonneg) :
    (Player.applyCmd hyp c p).hpInv ∧ (Player.applyCmd hyp c p).maxHp = p.maxHp := by
  obtain ⟨h0, hm⟩ := hinv
  cases c with
  | damage a src =>
      simp only [Player.applyCmd]
      rcases Player.takeDamage_hp hyp a src p with ⟨he, hmx⟩ | ⟨hpos, he, hmx⟩
      · exact ⟨⟨by rw [he]; exact h0, by rw [he, hmx]; exact hm⟩, hmx⟩
      · refine ⟨⟨by rw [he]; exact le_max_left _ _, ?_⟩, hmx⟩
        rw [he, hmx]
        exact max_le (h0.trans hm) (by have := hc; simp only [PCmd.nonneg] at this; omega)
  | heal a =>
      simp only [Player.applyCmd, Player.heal]
      split_ifs with hdead
      · exact ⟨⟨h0, hm⟩, rfl⟩
      · refine ⟨⟨?_, ?_⟩, rfl⟩
        · have ha : (0 : ℤ) ≤ a := hc
          exact le_min (h0.trans hm) (by omega)
        · exact min_le_left _ _
  | heartPickup =>
      refine ⟨⟨?_, ?_⟩, rfl⟩
      · exact le_min (h0.trans hm) (by omega)
      · exact min_le_left _ _

lemma Player.applyCmds_hpInv (hyp : ℚ → ℚ → ℚ) (cs : List PCmd) (p : Player)
    (hinv : p.hpInv) (hcs : ∀ c ∈ cs, c.nonneg) :
    (Player.applyCmds hyp cs p).hpInv ∧ (Player.applyCmds hyp cs p).maxHp = p.maxHp := by
  induction cs generalizing p with
  | nil => exact ⟨hinv, rfl⟩
  | cons c cs ih =>
      obtain ⟨h1, h2⟩ := Player.applyCmd_hpInv hyp c p hinv (hcs c (List.mem_cons_self c cs))
      obtain ⟨h3, h4⟩ := ih (Player.applyCmd hyp c p) h1
        (fun u hu => hcs u (List.mem_cons_of_mem c hu))
      exact ⟨h3, h4.trans h2⟩

/-- C1 counterexample: the enemy's `takeDamage` subtracts with no floor at 0
(`this.hp -= amount`).  A skeleton (hp 3) hit by attack 2 (damage 2), allowed
its 0.5 s hurt recovery, then hit by attack 2 again ends at `hp = −1`,
violating `0 ≤ hp`. -/
theorem enemy_hp_negative_counterexample :
    (Enemy.takeDamage 2
      ((Enemy.update skeletonWhiteStats hypAxis 300 50 (1/2)
        (Enemy.takeDamage 2 (Enemy.init skeletonWhiteStats 50 50 false))).1)).hp
      = -1 ∧
    ¬(0 ≤ (Enemy.takeDamage 2
      ((Enemy.update skeletonWhiteStats hypAxis 300 50 (1/2)
        (Enemy.takeDamage 2 (Enemy.init skeletonWhiteStats 50 50 false))).1)).hp) := by
  have h1 : Enemy.takeDamage 2 (Enemy.init skeletonWhiteStats 50 50 false)
      = { Enemy.init skeletonWhiteStats 50 50 false with
          hp := 1, state := .hurt, hurtLocked := true } := by
    norm_num [Enemy.takeDamage, Enemy.init, skeletonWhiteStats]
  have h2 : (Enemy.update skeletonWhiteStats hypAxis 300 50 (1/2)
      { Enemy.init skeletonWhiteStats 50 50 false with
        hp := 1, state := .hurt, hurtLocked := true }).1
      = { Enemy.init skeletonWhiteStats 50 50 false with hp := 1 } := by
    norm_num [Enemy.update, Enemy.tickCooldown, Enemy.hurtTick, Enemy.init, skeletonWhiteStats]
  rw [h1, h2]
  norm_num [Enemy.takeDamage, Enemy.init, skeletonWhiteStats]

/-- C1 (amended): for the player, any sequence of `takeDamage` / `heal` /
heart-pickup effects with the nonnegative amounts the program passes
preserves `0 ≤ hp ≤ maxHp` and never changes `maxHp`; `takeDamage` never
increases hp, the two heals never decrease it and clamp to `maxHp`, and
movement / knockback / bounds-clamping never touch hp.  For the enemy,
`takeDamage` never increases hp and `update` leaves hp unchanged — but
enemy `takeDamage` has no floor at 0, so the killing blow can leave hp
negative (see the counterexample). -/
theorem health_invariant_amended :
    (∀ (hyp : ℚ → ℚ → ℚ) (cs : List PCmd) (p : Player), p.hpInv →
      (∀ c ∈ cs, c.nonneg) →
      (Player.applyCmds hyp cs p).hpInv ∧
        (Player.applyCmds hyp cs p).maxHp = p.maxHp) ∧
    (∀ (hyp : ℚ → ℚ → ℚ) (a : ℤ) (src : Option (ℚ × ℚ)) (p : Player),
      0 ≤ a → (Player.takeDamage hyp a src p).hp ≤ p.hp) ∧
    (∀ (a : ℤ) (p : Player), 0 ≤ a → p.hp ≤ p.maxHp →
      p.hp ≤ (Player.heal a p).hp ∧ (Player.heal a p).hp ≤ p.maxHp) ∧
    (∀ (p : Player), p.hp ≤ p.maxHp →
      p.hp ≤ (Player.heartHeal p).hp ∧ (Player.heartHeal p).hp ≤ p.maxHp) ∧
    (∀ (m : TileMap) (s : ℚ) (p : Player),
      (Player.moveAxisX m s p).hp = p.hp ∧ (Player.moveAxisY m s p).hp = p.hp ∧
      (Player.knockbackStep m p).hp = p.hp ∧ (Player.boundsClamp m p).hp = p.hp) ∧
    (∀ (a : ℤ) (e : Enemy), 0 ≤ a → (Enemy.takeDamage a e).hp ≤ e.hp) ∧
    (∀ (st : EnemyStats) (hyp : ℚ → ℚ → ℚ) (px py dt : ℚ) (e : Enemy),
      ((Enemy.update st hyp px py dt e).1).hp = e.hp) := by
  refine ⟨Player.applyCmds_hpInv, ?_, ?_, ?_, ?_, ?_, ?_⟩
  · intro hyp a src p ha
    rcases Player.takeDamage_hp hyp a src p with ⟨he, -⟩ | ⟨hpos, he, -⟩
    · exact he.le
    · rw [he]
      omega
  · intro a p ha hm
    unfold Player.heal
    split_ifs
    · exact ⟨le_refl _, hm⟩
    · exact ⟨le_min hm (by omega), min_le_left _ _⟩
  · intro p hm
    unfold Player.heartHeal
    exact ⟨le_min hm (by omega), min_le_left _ _⟩
  · intro m s p
    refine ⟨?_, ?_, ?_, rfl⟩
    · unfold Player.moveAxisX
      dsimp only
      split_ifs <;> rfl
    · unfold Player.moveAxisY
      dsimp only
      split_ifs <;> rfl
    · unfold Player.knockbackStep
      dsimp only
      split_ifs <;> rfl
  · intro a e ha
    unfold Enemy.takeDamage
    dsimp only
    split_ifs
    · exact le_refl _
    · show e.hp - a ≤ e.hp
      omega
    · show e.hp - a ≤ e.hp
      omega
  · intro st hyp px py dt e
    exact (Enemy.update_fields st hyp px py dt e).2.1

/-- Witness for `health_invariant_amended`: a fresh player (hp 15/15) hit for
2, healed for 5, and collecting a heart stays inside `[0, maxHp]`; the
individual monotonicity facts evaluated at small concrete states. -/
theorem health_invariant_amended_witness :
    ((Player.applyCmds hypAxis
        [PCmd.damage 2 (some (0, 0)), PCmd.heal 5, PCmd.heartPickup]
        (Player.init 100 100)).hpInv ∧
      (Player.applyCmds hypAxis
        [PCmd.damage 2 (some (0, 0)), PCmd.heal 5, PCmd.heartPickup]
        (Player.init 100 100)).maxHp = (Player.init 100 100).maxHp) ∧
    (Player.takeDamage hypAxis 2 (some (0, 0)) (Player.init 100 100)).hp
      ≤ (Player.init 100 100).hp ∧
    (Player.init 100 100).hp ≤ (Player.heal 5 (Player.init 100 100)).hp ∧
    (Player.heartHeal (Player.init 100 100)).hp ≤ (Player.init 100 100).maxHp ∧
    (Enemy.takeDamage 1 (Enemy.init skeletonWhiteStats 50 50 false)).hp
      ≤ (Enemy.init skeletonWhiteStats 50 50 false).hp := by
  refine ⟨?_, ?_, ?_, ?_, ?_⟩
  · exact health_invariant_amended.1 hypAxis _ _
      ⟨by norm_num [Player.init], by norm_num [Player.init]⟩
      (by intro c hc; fin_cases hc <;> simp [PCmd.nonneg])
  · exact health_invariant_amended.2.1 hypAxis 2 (some (0, 0)) _ (by norm_num)
  · exact (health_invariant_amended.2.2.1 5 _ (by norm_num)
      (by norm_num [Player.init])).1
  · exact (health_invariant_amended.2.2.2.1 _ (by norm_num [Player.init])).2
  · exact health_invariant_amended.2.2.2.2.2.1 1 _ (by norm_num)

/-! ## Movement resolution (claim C3) -/

/-- The walk block of `Player.update`: attempt the X axis, then the Y axis,
each validated by `canStandAt` independently. -/
def Player.walkMove (m : TileMap) (stepX stepY : ℚ) (p : Player) : Player :=
  Player.moveAxisY m stepY (Player.moveAxisX m stepX p)

lemma Player.moveAxisX_spec (m : TileMap) (s : ℚ) (p : Player) :
    Player.moveAxisX m s p = p ∨
    ((Player.moveAxisX m s p).y = p.y ∧
      Player.canStandAt m (Player.moveAxisX m s p).x (Player.moveAxisX m s p).y = true) := by
  unfold Player.moveAxisX
  dsimp only
  split_ifs with h1 h2
  · exact Or.inr ⟨rfl, by simpa using h2⟩
  · exact Or.inl rfl
  · exact Or.inl rfl

lemma Player.moveAxisY_spec (m : TileMap) (s : ℚ) (p : Player) :
    Player.moveAxisY m s p = p ∨
    ((Player.moveAxisY m s p).x = p.x ∧
      Player.canStandAt m (Player.moveAxisY m s p).x (Player.moveAxisY m s p).y = true) := by
  unfold Player.moveAxisY
  dsimp only
  split_ifs with h1 h2
  · exact Or.inr ⟨rfl, by simpa using h2⟩
  · exact Or.inl rfl
  · exact Or.inl rfl

/-- C3 (amended): the player's walk and knockback movement commit a per-axis
move only when `canStandAt` accepts the destination, so after each block the
player either has not moved or stands at a position whose foot samples are
all unblocked.  (The enemy's chase movement and the post-move world-bounds
clamp perform no such validation — see the counterexample.) -/
theorem movement_collision_amended :
    (∀ (m : TileMap) (stepX stepY : ℚ) (p : Player),
      ((Player.walkMove m stepX stepY p).x = p.x ∧
        (Player.walkMove m stepX stepY p).y = p.y) ∨
      Player.canStandAt m (Player.walkMove m stepX stepY p).x
        (Player.walkMove m stepX stepY p).y = true) ∧
    (∀ (m : TileMap) (p : Player),
      ((Player.knockbackStep m p).x = p.x ∧ (Player.knockbackStep m p).y = p.y) ∨
      Player.canStandAt m (Player.knockbackStep m p).x
        (Player.knockbackStep m p).y = true) := by
  constructor
  · intro m stepX stepY p
    unfold Player.walkMove
    rcases Player.moveAxisY_spec m stepY (Player.moveAxisX m stepX p) with hY | ⟨hYx, hYs⟩
    · rw [hY]
      rcases Player.moveAxisX_spec m stepX p with hX | ⟨hXy, hXs⟩
      · rw [hX]
        exact Or.inl ⟨rfl, rfl⟩
      · exact Or.inr hXs
    · exact Or.inr hYs
  · intro m p
    unfold Player.knockbackStep
    dsimp only
    split_ifs with h1 h2 h3 h4
    · exact Or.inr (by simpa using h3)
    · exact Or.inr (by simpa using h2)
    · exact Or.inr (by simpa using h4)
    · exact Or.inl ⟨rfl, rfl⟩
    · exact Or.inl ⟨rfl, rfl⟩

/-- Witness for `movement_collision_amended`: a walk step and a knockback
step on a map with one solid collider, starting clear of it. -/
theorem movement_collision_amended_witness :
    (((Player.walkMove ⟨3840, 2560, [⟨500, 500, 64, 64, true⟩]⟩ 3 0
        (Player.init 100 100)).x = (Player.init 100 100).x ∧
      (Player.walkMove ⟨3840, 2560, [⟨500, 500, 64, 64, true⟩]⟩ 3 0
        (Player.init 100 100)).y = (Player.init 100 100).y) ∨
      Player.canStandAt ⟨3840, 2560, [⟨500, 500, 64, 64, true⟩]⟩
        (Player.walkMove ⟨3840, 2560, [⟨500, 500, 64, 64, true⟩]⟩ 3 0
          (Player.init 100 100)).x
        (Player.walkMove ⟨3840, 2560, [⟨500, 500, 64, 64, true⟩]⟩ 3 0
          (Player.init 100 100)).y = true) ∧
    (((Player.knockbackStep ⟨3840, 2560, [⟨500, 500, 64, 64, true⟩]⟩
        { Player.init 100 100 with knockVX := 6 }).x
          = ({ Player.init 100 100 with knockVX := 6 } : Player).x ∧
      (Player.knockbackStep ⟨3840, 2560, [⟨500, 500, 64, 64, true⟩]⟩
        { Player.init 100 100 with knockVX := 6 }).y
          = ({ Player.init 100 100 with knockVX := 6 } : Player).y) ∨
      Player.canStandAt ⟨3840, 2560, [⟨500, 500, 64, 64, true⟩]⟩
        (Player.knockbackStep ⟨3840, 2560, [⟨500, 500, 64, 64, true⟩]⟩
          { Player.init 100 100 with knockVX := 6 }).x
        (Player.knockbackStep ⟨3840, 2560, [⟨500, 500, 64, 64, true⟩]⟩
          { Player.init 100 100 with knockVX := 6 }).y = true) := by
  exact ⟨movement_collision_amended.1 _ 3 0 _, movement_collision_amended.2 _ _⟩

/-- C3 counterexample: enemy chase movement applies the move with no
collision query (`this.x += nx * this.SPEED` in `game/enemy.js`).  A
skeleton at (100, 50) chasing a player at (300, 50) steps to (101.5, 50),
inside the solid collider `[101, 110) × [40, 60)`, even though staying put
was valid; `hypAxis` agrees with `Math.hypot` at the evaluated input
(200, 0). -/
theorem movement_collision_counterexample :
    ((Enemy.update skeletonWhiteStats hypAxis 300 50 (1/60)
        (Enemy.init skeletonWhiteStats 100 50 false)).1).x = 203/2 ∧
    ((Enemy.update skeletonWhiteStats hypAxis 300 50 (1/60)
        (Enemy.init skeletonWhiteStats 100 50 false)).1).y = 50 ∧
    TileMap.isBlockedAtWorld ⟨3840, 2560, [⟨101, 40, 9, 20, true⟩]⟩
      (203/2) 50 = true ∧
    TileMap.isBlockedAtWorld ⟨3840, 2560, [⟨101, 40, 9, 20, true⟩]⟩
      100 50 = false ∧
    (203/2 : ℚ) ≠ 100 ∧
    hypAxis 200 0 = 200 ∧ (hypAxis 200 0)^2 = 200^2 + 0^2 ∧ 0 ≤ hypAxis 200 0 := by
  refine ⟨?_, ?_, ?_, ?_, by norm_num, by norm_num [hypAxis],
    by norm_num [hypAxis], by norm_num [hypAxis]⟩
  · norm_num [Enemy.update, Enemy.tickCooldown, Enemy.chaseTick, Enemy.init,
      skeletonWhiteStats, hypAxis]
  · norm_num [Enemy.update, Enemy.tickCooldown, Enemy.chaseTick, Enemy.init,
      skeletonWhiteStats, hypAxis]
  · norm_num [TileMap.isBlockedAtWorld, TileMap.pointHitsSolidCollider]
  · norm_num [TileMap.isBlockedAtWorld, TileMap.pointHitsSolidCollider]

/-! ## Attack hit detection (claim C4)

The hit routines read the other entities only through their positions and
collision boxes, so a target enemy is abstracted to an id plus a position;
the intersection tests are the exact squared-distance comparisons of the
source. -/

/-- A rectangle `{x, y, w, h}` as consumed by `circleIntersectsRect`. -/
structure Rect where
  x : ℚ
  y : ℚ
  w : ℚ
  h : ℚ
  deriving Repr, DecidableEq

/-- `circleIntersectsRect(cx, cy, r, rect)` (`game/player.js`): clamp the
circle center into the rectangle and compare squared distances. -/
def Player.circleIntersectsRect (cx cy r : ℚ) (rect : Rect) : Bool :=
  let closestX := max rect.x (min cx (rect.x + rect.w))
  let closestY := max rect.y (min cy (rect.y + rect.h))
  let dx := cx - closestX
  let dy := cy - closestY
  decide (dx * dx + dy * dy ≤ r * r)

/-- `getAttackCircle()`: radius-36 circle placed 34 px in front of the
player in the facing direction. -/
def Player.getAttackCircle (p : Player) : ℚ × ℚ × ℚ :=
  match p.dir with
  | .up => (p.x, p.y - 34, 36)
  | .down => (p.x, p.y + 34, 36)
  | .left => (p.x - 34, p.y, 36)
  | .right => (p.x + 34, p.y, 36)

/-- `getSplashCircle()`: radius-85 circle centered on the player. -/
def Player.getSplashCircle (p : Player) : ℚ × ℚ × ℚ :=
  (p.x, p.y, 85)

/-- A target enemy as seen by the player's hit routines: identity plus
position (its collision box is derived from the position by
`Enemy.getCollisionAABBAt`). -/
structure EnemyRef where
  id : ℕ
  x : ℚ
  y : ℚ
  deriving Repr, DecidableEq

/-- The enemy's collision box converted to the rect shape used by
`circleIntersectsRect` (`{x: b.left, y: b.top, w: b.w, h: b.h}`). -/
def enemyRect (ent : EnemyRef) : Rect :=
  let b := Enemy.getCollisionAABBAt ent.x ent.y
  ⟨b.1, b.2.1, b.2.2.1, b.2.2.2⟩

/-- `tryHitEnemies()` (attack 1): no-op while the attack cooldown runs;
otherwise damage the first enemy whose box meets the attack circle, arm the
cooldown and set the one-hit flag.  The returned list holds the ids that
received damage this call. -/
def Player.tryHitEnemies (enemies : List EnemyRef) (p : Player) : Player × List ℕ :=
  if p.attackCooldown > 0 then (p, [])
  else
    let atk := p.getAttackCircle
    match enemies.find? (fun ent =>
        Player.circleIntersectsRect atk.1 atk.2.1 atk.2.2 (enemyRect ent)) with
    | some ent =>
        ({ p with attackCooldown := Player.attackCooldownTime, attackDidHit := true },
          [ent.id])
    | none => (p, [])

/-- The body of the `tryHitEnemiesSplash()` loop, structurally mirroring the
`for (const ent of this.game.entities)` iteration: skip enemies already in
`attack2HitSet`, damage the others that meet the AoE circle and add them to
the set. -/
def Player.splashLoop (aoe : ℚ × ℚ × ℚ) :
    List EnemyRef → Player → Player × List ℕ
  | [], p => (p, [])
  | ent :: rest, p =>
      if ent.id ∈ p.attack2HitSet then Player.splashLoop aoe rest p
      else if Player.circleIntersectsRect aoe.1 aoe.2.1 aoe.2.2 (enemyRect ent) then
        let p' := { p with attack2HitSet := ent.id :: p.attack2HitSet }
        let r := Player.splashLoop aoe rest p'
        (r.1, ent.id :: r.2)
      else Player.splashLoop aoe rest p

/-- `tryHitEnemiesSplash()` (attack 2 AoE). -/
def Player.tryHitEnemiesSplash (enemies : List EnemyRef) (p : Player) :
    Player × List ℕ :=
  Player.splashLoop p.getSplashCircle enemies p

/-- `startAttack()` (`game/player.js`). -/
def Player.startAttack (p : Player) : Player :=
  { p with attacking := true, attacking2 := false, moving := false
           attackDidHit := false, animState := .attack, animDir := p.dir
           animElapsed := 0 }

/-- `startAttack2()` (`game/player.js`). -/
def Player.startAttack2 (p : Player) : Player :=
  { p with attacking2 := true, attacking := false, moving := false
           attack2DidHit := false, attack2HitSet := []
           attack2Cooldown := Player.attack2CooldownTime
           animState := .attack2, animDir := p.dir, animElapsed := 0 }

/-- The attack-1 branch of `Player.update`: advance the clip, run the hit
window (frames 2–4, guarded by `attackDidHit`), end the attack when the clip
finishes, clamp to world bounds.  (The trailing `camera.follow` only moves
the camera and is modelled by `Camera.follow`.) -/
def Player.attack1Tick (m : TileMap) (enemies : List EnemyRef) (dt : ℚ)
    (p : Player) : Player × List ℕ :=
  let ae := p.animElapsed + dt
  let frame : ℤ := ⌊ae / Player.attackFt⌋
  let p1 := { p with animElapsed := ae }
  let r :=
    if !p1.attackDidHit && decide (2 ≤ frame) && decide (frame ≤ 4) then
      Player.tryHitEnemies enemies p1
    else (p1, [])
  let p3 :=
    if ae ≥ (Player.attackFrames : ℚ) * Player.attackFt then
      { r.1 with attacking := false, animElapsed := 0
                 animState := .idle, animDir := r.1.dir }
    else r.1
  (Player.boundsClamp m p3, r.2)

/-- The attack-2 branch of `Player.update`: hit window frames 6–12 (no
`DidHit` guard — the per-target set provides the once-per-swing guarantee),
clear the set and flags when the clip finishes, clamp to world bounds. -/
def Player.attack2Tick (m : TileMap) (enemies : List EnemyRef) (dt : ℚ)
    (p : Player) : Player × List ℕ :=
  let ae := p.animElapsed + dt
  let frame : ℤ := ⌊ae / Player.attack2Ft⌋
  let p1 := { p with animElapsed := ae }
  let r :=
    if decide (6 ≤ frame) && decide (frame ≤ 12) then
      Player.tryHitEnemiesSplash enemies p1
    else (p1, [])
  let p3 :=
    if ae ≥ (Player.attack2Frames : ℚ) * Player.attack2Ft then
      { r.1 with attacking2 := false, animElapsed := 0
                 animState := .idle, animDir := r.1.dir
                 attack2DidHit := false, attack2HitSet := [] }
    else r.1
  (Player.boundsClamp m p3, r.2)

/-- An event interleaved into an attack swing: either the player's own
update tick (with the enemy positions of that tick) or an incoming
`takeDamage` call from an enemy or projectile. -/
inductive SwingOp where
  | tick (dt : ℚ) (enemies : List EnemyRef)
  | hurt (amount : ℤ) (src : Option (ℚ × ℚ))
  deriving Repr

/-- The ids damaged during one attack-1 swing: run ops until `attacking`
becomes false (attack exit), collecting the damage events. -/
def Player.swing1Events (hyp : ℚ → ℚ → ℚ) (m : TileMap) :
    List SwingOp → Player → List ℕ
  | [], _ => []
  | op :: ops, p =>
      if p.attacking = false then []
      else
        match op with
        | .tick dt enemies =>
            let r := Player.attack1Tick m enemies dt p
            r.2 ++ Player.swing1Events hyp m ops r.1
        | .hurt a src =>
            Player.swing1Events hyp m ops (Player.takeDamage hyp a src p)

/-- The ids damaged during one attack-2 swing. -/
def Player.swing2Events (hyp : ℚ → ℚ → ℚ) (m : TileMap) :
    List SwingOp → Player → List ℕ
  | [], _ => []
  | op :: ops, p =>
      if p.attacking2 = false then []
      else
        match op with
        | .tick dt enemies =>
            let r := Player.attack2Tick m enemies dt p
            r.2 ++ Player.swing2Events hyp m ops r.1
        | .hurt a src =>
            Player.swing2Events hyp m ops (Player.takeDamage hyp a src p)

/-- The number of `player.takeDamage` calls an enemy makes during one of its
attack swings: run ops until `attackLocked` clears (attack exit). -/
def Enemy.swingDamageCount (st : EnemyStats) (hyp : ℚ → ℚ → ℚ) :
    List EOp → Enemy → ℕ
  | [], _ => 0
  | op :: ops, e =>
      if e.attackLocked = false then 0
      else
        match op with
        | .tick px py dt =>
            let r := Enemy.update st hyp px py dt e
            (if r.2 then 1 else 0) + Enemy.swingDamageCount st hyp ops r.1
        | .damage a => Enemy.swingDamageCount st hyp ops (Enemy.takeDamage a e)
        | .wake => Enemy.swingDamageCount st hyp ops { e with asleep := false }

lemma Player.takeDamage_branch_cases (hyp : ℚ → ℚ → ℚ) (a : ℤ) (src : Option (ℚ × ℚ))
    (p : Player) :
    Player.takeDamage hyp a src p = p ∨
    ((Player.takeDamage hyp a src p).attacking = false ∧
      (Player.takeDamage hyp a src p).attacking2 = false) := by
  unfold Player.takeDamage Player.die
  cases src <;> dsimp only <;> split_ifs <;>
    first
      | exact Or.inl rfl
      | exact Or.inr ⟨rfl, rfl⟩

lemma Player.tryHitEnemies_spec (enemies : List EnemyRef) (p : Player) :
    Player.tryHitEnemies enemies p = (p, []) ∨
    ((Player.tryHitEnemies enemies p).2.length = 1 ∧
      (Player.tryHitEnemies enemies p).1.attackDidHit = true) := by
  unfold Player.tryHitEnemies
  dsimp only
  split_ifs
  · exact Or.inl rfl
  · cases hfind : List.find? (fun ent =>
        Player.circleIntersectsRect p.getAttackCircle.1 p.getAttackCircle.2.1
          p.getAttackCircle.2.2 (enemyRect ent)) enemies with
    | none => simp [hfind]
    | some ent => simp [hfind]

lemma Player.boundsClamp_fields (m : TileMap) (p : Player) :
    (Player.boundsClamp m p).attacking = p.attacking ∧
    (Player.boundsClamp m p).attacking2 = p.attacking2 ∧
    (Player.boundsClamp m p).attackDidHit = p.attackDidHit ∧
    (Player.boundsClamp m p).attack2HitSet = p.attack2HitSet := by
  exact ⟨rfl, rfl, rfl, rfl⟩

lemma Player.attack1Tick_spec (m : TileMap) (enemies : List EnemyRef)
    (dt : ℚ) (p : Player) :
    ((Player.attack1Tick m enemies dt p).2 = [] ∧
      (Player.attack1Tick m enemies dt p).1.attackDidHit = p.attackDidHit) ∨
    (p.attackDidHit = false ∧
      (Player.attack1Tick m enemies dt p).2.length = 1 ∧
      (Player.attack1Tick m enemies dt p).1.attackDidHit = true) := by
  unfold Player.attack1Tick
  dsimp only
  split_ifs with hw hend hend
  all_goals
    first
      | (exact Or.inl ⟨rfl, rfl⟩)
      | (rcases Player.tryHitEnemies_spec enemies { p with animElapsed := p.animElapsed + dt }
            with heq | ⟨hlen, hdid⟩
         · rw [heq]
           exact Or.inl ⟨rfl, rfl⟩
         · refine Or.inr ⟨?_, hlen, hdid⟩
           have := hw
           simp only [Bool.and_eq_true, Bool.not_eq_true'] at this
           exact this.1.1)

lemma Player.swing1Events_done (hyp : ℚ → ℚ → ℚ) (m : TileMap)
    (ops : List SwingOp) (p : Player)
    (h : p.attackDidHit = true ∨ p.attacking = false) :
    Player.swing1Events hyp m ops p = [] := by
  induction ops generalizing p with
  | nil => rfl
  | cons op ops ih =>
      unfold Player.swing1Events
      by_cases hat : p.attacking = false
      · rw [if_pos hat]
      · rw [if_neg hat]
        rcases h with hdid | hf
        · cases op with
          | tick dt enemies =>
              dsimp only
              rcases Player.attack1Tick_spec m enemies dt p with ⟨hev, hpres⟩ | ⟨hf0, -, -⟩
              · rw [hev]
                simpa using ih _ (Or.inl (hpres.trans hdid))
              · rw [hf0] at hdid
                exact absurd hdid (by simp)
          | hurt a src =>
              dsimp only
              rcases Player.takeDamage_branch_cases hyp a src p with heq | ⟨hat2, -⟩
              · rw [heq]
                exact ih _ (Or.inl hdid)
              · exact ih _ (Or.inr hat2)
        · exact absurd hf hat

lemma Player.swing1Events_le_one (hyp : ℚ → ℚ → ℚ) (m : TileMap)
    (ops : List SwingOp) (p : Player) :
    (Player.swing1Events hyp m ops p).length ≤ 1 := by
  induction ops generalizing p with
  | nil => simp [Player.swing1Events]
  | cons op ops ih =>
      unfold Player.swing1Events
      by_cases hat : p.attacking = false
      · simp [hat]
      · rw [if_neg hat]
        cases op with
        | tick dt enemies =>
            dsimp only
            rcases Player.attack1Tick_spec m enemies dt p with ⟨hev, -⟩ | ⟨-, hlen, hdid⟩
            · rw [hev]
              simpa using ih _
            · rw [List.length_append, hlen,
                Player.swing1Events_done hyp m ops _ (Or.inl hdid)]
              simp
        | hurt a src => exact ih _

lemma Player.splashLoop_spec (aoe : ℚ × ℚ × ℚ) (ents : List EnemyRef)
    (p : Player) (id : ℕ) :
    (Player.splashLoop aoe ents p).1.attacking2 = p.attacking2 ∧
    (id ∈ p.attack2HitSet →
      id ∈ (Player.splashLoop aoe ents p).1.attack2HitSet ∧
      (Player.splashLoop aoe ents p).2.count id = 0) ∧
    (Player.splashLoop aoe ents p).2.count id ≤ 1 ∧
    (1 ≤ (Player.splashLoop aoe ents p).2.count id →
      id ∈ (Player.splashLoop aoe ents p).1.attack2HitSet) := by
  induction ents generalizing p with
  | nil =>
      refine ⟨rfl, fun h => ⟨h, rfl⟩, by simp [Player.splashLoop], ?_⟩
      intro h
      simp [Player.splashLoop] at h
  | cons ent rest ih =>
      unfold Player.splashLoop
      by_cases hmem : ent.id ∈ p.attack2HitSet
      · rw [if_pos hmem]
        exact ih p
      · rw [if_neg hmem]
        by_cases hint : Player.circleIntersectsRect aoe.1 aoe.2.1 aoe.2.2 (enemyRect ent) = true
        · rw [if_pos hint]
          dsimp only
          obtain ⟨ih1, ih2, ih3, ih4⟩ :=
            ih { p with attack2HitSet := ent.id :: p.attack2HitSet }
          refine ⟨ih1, ?_, ?_, ?_⟩
          · intro hid
            have hne : id ≠ ent.id := fun hcontra => hmem (hcontra ▸ hid)
            obtain ⟨hmem', hcnt⟩ := ih2 (List.mem_cons_of_mem _ hid)
            exact ⟨hmem', by simp [List.count_cons, hne, hcnt]⟩
          · by_cases hid : id = ent.id
            · subst hid
              obtain ⟨-, hcnt⟩ := ih2 (List.mem_cons_self _ _)
              simp [List.count_cons, hcnt]
            · simpa [List.count_cons, hid] using ih3
          · intro hcnt
            by_cases hid : id = ent.id
            · subst hid
              exact (ih2 (List.mem_cons_self _ _)).1
            · exact ih4 (by simpa [List.count_cons, hid] using hcnt)
        · rw [if_neg hint]
          exact ih p

lemma Player.attack2Tick_spec (m : TileMap) (enemies : List EnemyRef)
    (dt : ℚ) (p : Player) (id : ℕ) :
    (Player.attack2Tick m enemies dt p).2.count id ≤ 1 ∧
    (id ∈ p.attack2HitSet → (Player.attack2Tick m enemies dt p).2.count id = 0) ∧
    ((1 ≤ (Player.attack2Tick m enemies dt p).2.count id ∨ id ∈ p.attack2HitSet) →
      ((Player.attack2Tick m enemies dt p).1.attacking2 = false ∨
        id ∈ (Player.attack2Tick m enemies dt p).1.attack2HitSet)) := by
  unfold Player.attack2Tick Player.tryHitEnemiesSplash
  dsimp only
  obtain ⟨hs1, hs2, hs3, hs4⟩ :=
    Player.splashLoop_spec ({ p with animElapsed := p.animElapsed + dt } : Player).getSplashCircle
      enemies { p with animElapsed := p.animElapsed + dt } id
  split_ifs with hw hend hend
  · exact ⟨hs3, fun h => (hs2 h).2, fun _ => Or.inl rfl⟩
  · refine ⟨hs3, fun h => (hs2 h).2, ?_⟩
    rintro (hc | hmem)
    · exact Or.inr (hs4 hc)
    · exact Or.inr (hs2 hmem).1
  · exact ⟨by simp, fun _ => rfl, fun _ => Or.inl rfl⟩
  · refine ⟨by simp, fun _ => rfl, ?_⟩
    rintro (hc | hmem)
    · simp at hc
    · exact Or.inr hmem

lemma Player.swing2Events_done (hyp : ℚ → ℚ → ℚ) (m : TileMap)
    (ops : List SwingOp) (p : Player) (id : ℕ)
    (h : id ∈ p.attack2HitSet ∨ p.attacking2 = false) :
    (Player.swing2Events hyp m ops p).count id = 0 := by
  induction ops generalizing p with
  | nil => rfl
  | cons op ops ih =>
      unfold Player.swing2Events
      by_cases hat : p.attacking2 = false
      · rw [if_pos hat]
        rfl
      · rw [if_neg hat]
        rcases h with hmem | hf
        · cases op with
          | tick dt enemies =>
              dsimp only
              obtain ⟨-, h2, h3⟩ := Player.attack2Tick_spec m enemies dt p id
              rw [List.count_append, h2 hmem]
              rcases h3 (Or.inr hmem) with hoff | hmem'
              · rw [ih _ (Or.inr hoff)]
              · rw [ih _ (Or.inl hmem')]
          | hurt a src =>
              dsimp only
              rcases Player.takeDamage_branch_cases hyp a src p with heq | ⟨-, hat2⟩
              · rw [heq]
                exact ih _ (Or.inl hmem)
              · exact ih _ (Or.inr hat2)
        · exact absurd hf hat

lemma Player.swing2Events_count_le_one (hyp : ℚ → ℚ → ℚ) (m : TileMap)
    (ops : List SwingOp) (p : Player) (id : ℕ) :
    (Player.swing2Events hyp m ops p).count id ≤ 1 := by
  induction ops generalizing p with
  | nil => simp [Player.swing2Events]
  | cons op ops ih =>
      unfold Player.swing2Events
      by_cases hat : p.attacking2 = false
      · simp [hat]
      · rw [if_neg hat]
        cases op with
        | tick dt enemies =>
            dsimp only
            obtain ⟨h1, -, h3⟩ := Player.attack2Tick_spec m enemies dt p id
            rw [List.count_append]
            by_cases hc : 1 ≤ (Player.attack2Tick m enemies dt p).2.count id
            · rcases h3 (Or.inl hc) with hoff | hmem'
              · rw [Player.swing2Events_done hyp m ops _ id (Or.inr hoff)]
                omega
              · rw [Player.swing2Events_done hyp m ops _ id (Or.inl hmem')]
                omega
            · have : (Player.attack2Tick m enemies dt p).2.count id = 0 := by omega
              rw [this]
              simpa using ih _
        | hurt a src => exact ih _

lemma Enemy.takeDamage_guard_cases (a : ℤ) (e : Enemy) :
    Enemy.takeDamage a e = e ∨ (Enemy.takeDamage a e).attackLocked = false := by
  unfold Enemy.takeDamage
  dsimp only
  split_ifs <;>
    first
      | exact Or.inl rfl
      | exact Or.inr rfl

lemma Enemy.attackTick_didHit_true (st : EnemyStats) (hyp : ℚ → ℚ → ℚ)
    (px py dt : ℚ) (e : Enemy) (h : e.attackDidHit = true) :
    (Enemy.attackTick st hyp px py dt e).2 = false ∧
    (Enemy.attackTick st hyp px py dt e).1.attackDidHit = true := by
  unfold Enemy.attackTick
  dsimp only
  rw [h]
  split_ifs <;> simp

lemma Enemy.attackTick_emit (st : EnemyStats) (hyp : ℚ → ℚ → ℚ)
    (px py dt : ℚ) (e : Enemy)
    (h : (Enemy.attackTick st hyp px py dt e).2 = true) :
    (Enemy.attackTick st hyp px py dt e).1.attackDidHit = true := by
  unfold Enemy.attackTick at h ⊢
  dsimp only at h ⊢
  split_ifs at h ⊢ with hhit hend <;> simp_all

lemma Enemy.update_didHit_true (st : EnemyStats) (hyp : ℚ → ℚ → ℚ)
    (px py dt : ℚ) (e : Enemy) (h : e.attackDidHit = true)
    (hl : e.attackLocked = true) :
    (Enemy.update st hyp px py dt e).2 = false ∧
    ((Enemy.update st hyp px py dt e).1).attackDidHit = true := by
  have hf := Enemy.tickCooldown_fields dt e
  unfold Enemy.update
  dsimp only
  split_ifs with h1 h2 h3 h4
  · exact ⟨rfl, h⟩
  · exact ⟨rfl, (show (Enemy.dieTick st dt (Enemy.tickCooldown dt e)).attackDidHit
      = (Enemy.tickCooldown dt e).attackDidHit from rfl).trans (hf.2.2.2.2.2.1.trans h)⟩
  · exact ⟨rfl, ((Enemy.hurtTick_fields st dt (Enemy.tickCooldown dt e)).2.2.2).trans
      (hf.2.2.2.2.2.1.trans h)⟩
  · obtain ⟨he, hd⟩ := Enemy.attackTick_didHit_true st hyp px py dt
      (Enemy.tickCooldown dt e) (hf.2.2.2.2.2.1.trans h)
    exact ⟨he, hd⟩
  · exact absurd (hf.2.2.2.2.1.trans hl) h4

lemma Enemy.update_emit_didHit (st : EnemyStats) (hyp : ℚ → ℚ → ℚ)
    (px py dt : ℚ) (e : Enemy)
    (h : (Enemy.update st hyp px py dt e).2 = true) :
    ((Enemy.update st hyp px py dt e).1).attackDidHit = true := by
  unfold Enemy.update at h ⊢
  dsimp only at h ⊢
  split_ifs at h ⊢ with h1 h2 h3 h4
  exact Enemy.attackTick_emit st hyp px py dt _ h

lemma Enemy.swingDamageCount_done (st : EnemyStats) (hyp : ℚ → ℚ → ℚ)
    (ops : List EOp) (e : Enemy)
    (h : e.attackDidHit = true ∨ e.attackLocked = false) :
    Enemy.swingDamageCount st hyp ops e = 0 := by
  induction ops generalizing e with
  | nil => rfl
  | cons op ops ih =>
      unfold Enemy.swingDamageCount
      by_cases hl : e.attackLocked = false
      · rw [if_pos hl]
      · rw [if_neg hl]
        have hl' : e.attackLocked = true := by simpa using hl
        rcases h with hdid | hf
        · cases op with
          | tick px py dt =>
              dsimp only
              obtain ⟨hemit, hdid'⟩ := Enemy.update_didHit_true st hyp px py dt e hdid hl'
              rw [hemit]
              simpa using ih _ (Or.inl hdid')
          | damage a =>
              dsimp only
              rcases Enemy.takeDamage_guard_cases a e with heq | hunlock
              · rw [heq]
                exact ih _ (Or.inl hdid)
              · exact ih _ (Or.inr hunlock)
          | wake => exact ih _ (Or.inl hdid)
        · exact absurd hf hl

lemma Enemy.swingDamageCount_le_one (st : EnemyStats) (hyp : ℚ → ℚ → ℚ)
    (ops : List EOp) (e : Enemy) :
    Enemy.swingDamageCount st hyp ops e ≤ 1 := by
  induction ops generalizing e with
  | nil => simp [Enemy.swingDamageCount]
  | cons op ops ih =>
      unfold Enemy.swingDamageCount
      by_cases hl : e.attackLocked = false
      · simp [hl]
      · rw [if_neg hl]
        cases op with
        | tick px py dt =>
            dsimp only
            by_cases hemit : (Enemy.update st hyp px py dt e).2 = true
            · rw [hemit]
              rw [Enemy.swingDamageCount_done st hyp ops _
                (Or.inl (Enemy.update_emit_didHit st hyp px py dt e hemit))]
              simp
            · rw [Bool.not_eq_true] at hemit
              rw [hemit]
              simpa using ih _
        | damage a => exact ih _
        | wake => exact ih _

/-- C4: at most one damage application reaches any given target across one
full attack lifetime, from attack entry (`startAttack` / `startAttack2`)
until the attack lock clears, however the hit window spans ticks and however
incoming damage interleaves: the player's attack 1 lands at most one hit in
total (hence at most one per target), the attack 2 AoE damages each enemy id
at most once, and the enemy melee attack damages the player at most once. -/
theorem single_hit_per_swing :
    (∀ (hyp : ℚ → ℚ → ℚ) (m : TileMap) (ops : List SwingOp) (p : Player),
      (Player.swing1Events hyp m ops (Player.startAttack p)).length ≤ 1) ∧
    (∀ (hyp : ℚ → ℚ → ℚ) (m : TileMap) (ops : List SwingOp) (p : Player) (id : ℕ),
      (Player.swing1Events hyp m ops (Player.startAttack p)).count id ≤ 1) ∧
    (∀ (hyp : ℚ → ℚ → ℚ) (m : TileMap) (ops : List SwingOp) (p : Player) (id : ℕ),
      (Player.swing2Events hyp m ops (Player.startAttack2 p)).count id ≤ 1) ∧
    (∀ (st : EnemyStats) (hyp : ℚ → ℚ → ℚ) (ops : List EOp) (e : Enemy),
      Enemy.swingDamageCount st hyp ops (Enemy.startAttack st e) ≤ 1) := by
  refine ⟨?_, ?_, ?_, ?_⟩
  · intro hyp m ops p
    exact Player.swing1Events_le_one hyp m ops _
  · intro hyp m ops p id
    exact (List.count_le_length _ _).trans (Player.swing1Events_le_one hyp m ops _)
  · intro hyp m ops p id
    exact Player.swing2Events_count_le_one hyp m ops _ id
  · intro st hyp ops e
    exact Enemy.swingDamageCount_le_one st hyp ops _

/-! ## Enemy projectile (`game/projectile.js`, claim C6)

`update()` moves by `direction × speed` per tick (not scaled by `dt`), then
checks lifetime, wall and player hit in that order, each early-returning
after setting `removeFromWorld`.  The returned option names the cause when
this tick terminated the projectile (`hit` is the only cause that applies
damage to the player). -/

/-- The three ways a projectile terminates. -/
inductive PCause where
  | life | wall | hit
  deriving Repr, DecidableEq

/-- Projectile state (`EnemyProjectile` constructor; the late-draw queue is
draw-only and not part of the entity state). -/
structure EnemyProjectile where
  x : ℚ
  y : ℚ
  vx : ℚ
  vy : ℚ
  speed : ℚ
  damage : ℚ
  life : ℚ
  radius : ℚ
  removeFromWorld : Bool
  deriving Repr, DecidableEq

/-- `EnemyProjectile.update()`: straight-line move, then lifetime, wall and
player-distance checks in source order, each expiring the projectile and
returning. -/
def EnemyProjectile.update (hyp : ℚ → ℚ → ℚ) (m : TileMap) (px py dt : ℚ)
    (pr : EnemyProjectile) : EnemyProjectile × Option PCause :=
  let pr1 := { pr with x := pr.x + pr.vx * pr.speed, y := pr.y + pr.vy * pr.speed }
  let pr2 := { pr1 with life := pr1.life - dt }
  if pr2.life ≤ 0 then ({ pr2 with removeFromWorld := true }, some .life)
  else if m.isBlockedAtWorld pr2.x pr2.y then
    ({ pr2 with removeFromWorld := true }, some .wall)
  else if hyp (px - pr2.x) (py - pr2.y) ≤ pr2.radius + 18 then
    ({ pr2 with removeFromWorld := true }, some .hit)
  else (pr2, none)

/-- Modelled from the spec: the GameEngine scheduler (`gameengine.js`, which
is not under `src/`) "removes entities flagged for removal at a safe point
between ticks", so a projectile whose `removeFromWorld` is set receives no
further `update` call.  A run feeds one `(px, py, dt)` tick at a time until
the list ends or the projectile is removed, collecting termination causes. -/
def EnemyProjectile.run (hyp : ℚ → ℚ → ℚ) (m : TileMap) :
    List (ℚ × ℚ × ℚ) → EnemyProjectile → EnemyProjectile × List PCause
  | [], pr => (pr, [])
  | t :: ts, pr =>
      if pr.removeFromWorld then (pr, [])
      else
        let r := EnemyProjectile.update hyp m t.1 t.2.1 t.2.2 pr
        let rest := EnemyProjectile.run hyp m ts r.1
        (rest.1, r.2.toList ++ rest.2)

lemma EnemyProjectile.update_step_cases (hyp : ℚ → ℚ → ℚ) (m : TileMap)
    (px py dt : ℚ) (pr : EnemyProjectile) :
    ((EnemyProjectile.update hyp m px py dt pr).2 = none ∧
      (EnemyProjectile.update hyp m px py dt pr).1.removeFromWorld = pr.removeFromWorld) ∨
    ((EnemyProjectile.update hyp m px py dt pr).2 ≠ none ∧
      (EnemyProjectile.update hyp m px py dt pr).1.removeFromWorld = true) := by
  unfold EnemyProjectile.update
  dsimp only
  split_ifs <;> simp

lemma EnemyProjectile.run_stop_removed (hyp : ℚ → ℚ → ℚ) (m : TileMap)
    (ts : List (ℚ × ℚ × ℚ)) (pr : EnemyProjectile)
    (h : pr.removeFromWorld = true) :
    EnemyProjectile.run hyp m ts pr = (pr, []) := by
  cases ts with
  | nil => rfl
  | cons t ts =>
      unfold EnemyProjectile.run
      rw [if_pos h]

lemma EnemyProjectile.run_spec (hyp : ℚ → ℚ → ℚ) (m : TileMap)
    (ts : List (ℚ × ℚ × ℚ)) (pr : EnemyProjectile) :
    (EnemyProjectile.run hyp m ts pr).2.length ≤ 1 ∧
    (pr.removeFromWorld = false →
      ((EnemyProjectile.run hyp m ts pr).1.removeFromWorld = true ↔
        (EnemyProjectile.run hyp m ts pr).2.length = 1)) := by
  induction ts generalizing pr with
  | nil =>
      refine ⟨by simp [EnemyProjectile.run], fun h => ?_⟩
      simp [EnemyProjectile.run, h]
  | cons t ts ih =>
      unfold EnemyProjectile.run
      by_cases hrm : pr.removeFromWorld = true
      · rw [if_pos hrm]
        refine ⟨by simp, fun h => ?_⟩
        rw [h] at hrm
        exact absurd hrm (by simp)
      · rw [if_neg hrm]
        dsimp only
        rcases EnemyProjectile.update_step_cases hyp m t.1 t.2.1 t.2.2 pr with
          ⟨hnone, hflag⟩ | ⟨hsome, hflag⟩
        · obtain ⟨ihlen, ihiff⟩ := ih (EnemyProjectile.update hyp m t.1 t.2.1 t.2.2 pr).1
          have hflag' : (EnemyProjectile.update hyp m t.1 t.2.1 t.2.2 pr).1.removeFromWorld = false := by
            rw [hflag]
            simpa using hrm
          refine ⟨by simpa [hnone] using ihlen, fun _ => ?_⟩
          rw [hnone]
          simpa using ihiff hflag'
        · rw [EnemyProjectile.run_stop_removed hyp m ts _ hflag]
          cases hc : (EnemyProjectile.update hyp m t.1 t.2.1 t.2.2 pr).2 with
          | none => exact absurd hc hsome
          | some c =>
              refine ⟨by simp [hc], fun _ => ?_⟩
              simp [hc, hflag]

lemma EnemyProjectile.update_none (hyp : ℚ → ℚ → ℚ) (m : TileMap)
    (px py dt : ℚ) (pr : EnemyProjectile)
    (h1 : ¬(pr.life - dt ≤ 0))
    (h2 : m.isBlockedAtWorld (pr.x + pr.vx * pr.speed) (pr.y + pr.vy * pr.speed) = false)
    (h3 : ¬(hyp (px - (pr.x + pr.vx * pr.speed)) (py - (pr.y + pr.vy * pr.speed))
        ≤ pr.radius + 18)) :
    EnemyProjectile.update hyp m px py dt pr
      = ({ pr with x := pr.x + pr.vx * pr.speed, y := pr.y + pr.vy * pr.speed
                   life := pr.life - dt }, none) := by
  unfold EnemyProjectile.update
  dsimp only
  rw [if_neg h1, if_neg (by simp [h2]), if_neg h3]

lemma EnemyProjectile.update_expire (hyp : ℚ → ℚ → ℚ) (m : TileMap)
    (px py dt : ℚ) (pr : EnemyProjectile)
    (h1 : pr.life - dt ≤ 0) :
    EnemyProjectile.update hyp m px py dt pr
      = ({ pr with x := pr.x + pr.vx * pr.speed, y := pr.y + pr.vy * pr.speed
                   life := pr.life - dt, removeFromWorld := true }, some .life) := by
  unfold EnemyProjectile.update
  dsimp only
  rw [if_pos h1]

/-- The spec's scenario projectile after `k` ticks: spawned at (100, 100)
with direction (1, 0), speed 6, damage 1, life 2.4 s, radius 14, advanced by
(6, 0) per tick with life reduced by the fixed 0.1 s tick. -/
def scnProj (k : ℕ) : EnemyProjectile where
  x := 100 + 6 * k
  y := 100
  vx := 1
  vy := 0
  speed := 6
  damage := 1
  life := 12/5 - k/10
  radius := 14
  removeFromWorld := false

/-- The scenario world: the empty 3840×2560 map with the player far away at
(3000, 100), on the projectile's own y so that `hypAxis` returns the exact
`Math.hypot` value at every queried input. -/
def scnMap : TileMap := ⟨3840, 2560, []⟩

lemma scn_step (k : ℕ) (hk : k < 23) :
    EnemyProjectile.update hypAxis scnMap 3000 100 (1/10) (scnProj k)
      = (scnProj (k + 1), none) := by
  have hkq : (k : ℚ) ≤ 22 := by exact_mod_cast Nat.lt_succ_iff.mp hk
  have hkq0 : (0 : ℚ) ≤ (k : ℚ) := Nat.cast_nonneg k
  have h1 : ¬((scnProj k).life - 1/10 ≤ 0) := by
    simp only [scnProj]
    intro hc
    linarith
  have h2 : scnMap.isBlockedAtWorld
      ((scnProj k).x + (scnProj k).vx * (scnProj k).speed)
      ((scnProj k).y + (scnProj k).vy * (scnProj k).speed) = false := by
    simp only [scnProj, scnMap, TileMap.isBlockedAtWorld,
      TileMap.pointHitsSolidCollider, List.any_nil]
    refine if_neg ?_
    simp only [Bool.or_eq_true, decide_eq_true_eq, not_or, not_lt, ge_iff_le, not_le]
    refine ⟨⟨⟨by linarith, by norm_num⟩, by linarith⟩, by norm_num⟩
  have h3 : ¬(hypAxis (3000 - ((scnProj k).x + (scnProj k).vx * (scnProj k).speed))
      (100 - ((scnProj k).y + (scnProj k).vy * (scnProj k).speed))
      ≤ (scnProj k).radius + 18) := by
    simp only [scnProj, hypAxis]
    have hdx : (0 : ℚ) < 3000 - (100 + 6 * k + 1 * 6) := by linarith
    rw [if_neg (ne_of_gt hdx), if_pos (by norm_num), abs_of_pos hdx]
    intro hc
    linarith
  rw [EnemyProjectile.update_none hypAxis scnMap 3000 100 (1/10) (scnProj k) h1 h2 h3]
  simp only [scnProj, Prod.mk.injEq, EnemyProjectile.mk.injEq]
  norm_num
  constructor
  · ring
  · ring

lemma scn_last :
    EnemyProjectile.update hypAxis scnMap 3000 100 (1/10) (scnProj 23)
      = ({ scnProj 24 with removeFromWorld := true }, some PCause.life) := by
  rw [EnemyProjectile.update_expire]
  · simp only [scnProj, Prod.mk.injEq, EnemyProjectile.mk.injEq]
    norm_num
  · simp only [scnProj]
    norm_num

/-- Partial scenario run: `j` ticks from tick `k` with `k + j ≤ 23` advance
the projectile by exactly (6, 0) per tick with no expiry. -/
lemma scn_run_prefix (j k : ℕ) (hkj : k + j ≤ 23) :
    EnemyProjectile.run hypAxis scnMap
      (List.replicate j (3000, 100, 1/10)) (scnProj k)
      = (scnProj (k + j), []) := by
  induction j generalizing k with
  | zero => simp [EnemyProjectile.run]
  | succ j ih =>
      rw [List.replicate_succ]
      unfold EnemyProjectile.run
      rw [if_neg (by simp [scnProj])]
      dsimp only
      rw [scn_step k (by omega), ih (k + 1) (by omega)]
      simp only [Option.toList_none, List.nil_append]
      rw [show k + 1 + j = k + (j + 1) from by omega]

lemma scn_run_full (j k : ℕ) (hj : k + j = 24) (hk : k ≤ 23) :
    EnemyProjectile.run hypAxis scnMap
      (List.replicate j (3000, 100, 1/10)) (scnProj k)
      = ({ scnProj 24 with removeFromWorld := true }, [PCause.life]) := by
  induction j generalizing k with
  | zero => omega
  | succ j ih =>
      rw [List.replicate_succ]
      unfold EnemyProjectile.run
      rw [if_neg (by simp [scnProj])]
      dsimp only
      by_cases hj0 : j = 0
      · subst hj0
        have hk23 : k = 23 := by omega
        subst hk23
        rw [scn_last]
        simp [EnemyProjectile.run]
      · rw [scn_step k (by omega), ih (k + 1) (by omega) (by omega)]
        simp

/-- C6: a projectile advances by exactly `direction × speed` per tick; under
the scheduler's removal semantics a run produces at most one termination
cause, the projectile ends removed iff exactly one cause fired, and the
`hit` cause (the only one applying damage) occurs at most once.  In the
spec's scenario — direction (1,0), speed 6, life 2.4 s, radius 14, fixed
0.1 s ticks, no obstruction, player far away — 23 ticks move it by exactly
(6, 0) each with no expiry, and on tick 24 it self-expires by lifetime. -/
theorem projectile_termination :
    (∀ (hyp : ℚ → ℚ → ℚ) (m : TileMap) (px py dt : ℚ) (pr : EnemyProjectile),
      (EnemyProjectile.update hyp m px py dt pr).1.x = pr.x + pr.vx * pr.speed ∧
      (EnemyProjectile.update hyp m px py dt pr).1.y = pr.y + pr.vy * pr.speed) ∧
    (∀ (hyp : ℚ → ℚ → ℚ) (m : TileMap) (ts : List (ℚ × ℚ × ℚ)) (pr : EnemyProjectile),
      (EnemyProjectile.run hyp m ts pr).2.length ≤ 1) ∧
    (∀ (hyp : ℚ → ℚ → ℚ) (m : TileMap) (ts : List (ℚ × ℚ × ℚ)) (pr : EnemyProjectile),
      pr.removeFromWorld = false →
      ((EnemyProjectile.run hyp m ts pr).1.removeFromWorld = true ↔
        (EnemyProjectile.run hyp m ts pr).2.length = 1)) ∧
    (∀ (hyp : ℚ → ℚ → ℚ) (m : TileMap) (ts : List (ℚ × ℚ × ℚ)) (pr : EnemyProjectile),
      (EnemyProjectile.run hyp m ts pr).2.count PCause.hit ≤ 1) ∧
    EnemyProjectile.run hypAxis scnMap
      (List.replicate 23 (3000, 100, 1/10)) (scnProj 0) = (scnProj 23, []) ∧
    (scnProj 23).x = 100 + 6 * 23 ∧ (scnProj 23).y = 100 ∧
    (scnProj 23).removeFromWorld = false ∧
    EnemyProjectile.run hypAxis scnMap
      (List.replicate 24 (3000, 100, 1/10)) (scnProj 0)
      = ({ scnProj 24 with removeFromWorld := true }, [PCause.life]) ∧
    (scnProj 24).x = 100 + 6 * 24 ∧ (scnProj 24).y = 100 := by
  refine ⟨?_, ?_, ?_, ?_, ?_, by norm_num [scnProj], rfl, rfl, ?_, by norm_num [scnProj], rfl⟩
  · intro hyp m px py dt pr
    unfold EnemyProjectile.update
    dsimp only
    split_ifs <;> exact ⟨rfl, rfl⟩
  · intro hyp m ts pr
    exact (EnemyProjectile.run_spec hyp m ts pr).1
  · intro hyp m ts pr h
    exact (EnemyProjectile.run_spec hyp m ts pr).2 h
  · intro hyp m ts pr
    exact (List.count_le_length _ _).trans (EnemyProjectile.run_spec hyp m ts pr).1
  · simpa using scn_run_prefix 23 0 (by norm_num)
  · simpa using scn_run_full 24 0 rfl (by norm_num)

/-- Witness for `projectile_termination`: the scenario projectile starts
un-removed, and after the full 24-tick run the termination iff holds with
exactly one cause. -/
theorem projectile_termination_witness :
    (scnProj 0).removeFromWorld = false ∧
    ((EnemyProjectile.run hypAxis scnMap
        (List.replicate 24 (3000, 100, 1/10)) (scnProj 0)).1.removeFromWorld = true ↔
      (EnemyProjectile.run hypAxis scnMap
        (List.replicate 24 (3000, 100, 1/10)) (scnProj 0)).2.length = 1) := by
  exact ⟨rfl, projectile_termination.2.2.1 hypAxis scnMap _ _ rfl⟩

/-! ## Objectives (`game/objectives.js`, claim C7) -/

/-- The advance loop of `ObjectiveManager.update()`:
`while (this.index < this.steps.length - 1 && this.steps[this.index].isComplete()) this.index++;`
written with explicit fuel.  Fuel `len` always suffices to reach the loop's
exit condition (established in `objective_advance_monotonic`), so
`advanceAux len` computes exactly the while loop's result. -/
def advanceAux : ℕ → (ℕ → Bool) → ℕ → ℕ → ℕ
  | 0, _, _, i => i
  | fuel + 1, complete, len, i =>
      if i < len - 1 ∧ complete i = true then advanceAux fuel complete len (i + 1)
      else i

/-- `ObjectiveManager.update()`: `if (this.game.gameOver) return;` then the
advance loop over the step completion predicates. -/
def ObjectiveManager.update (gameOver : Bool) (complete : ℕ → Bool)
    (len i : ℕ) : ℕ :=
  if gameOver then i else advanceAux len complete len i

/-- The shared game flags the four objective steps read. -/
structure GameFlags where
  storyRead : Bool
  keysCollected : ℕ
  requiredKeys : ℕ
  enemiesLeft : ℕ
  win : Bool
  gameOver : Bool
  deriving Repr, DecidableEq

/-- The completion predicates of the four steps built in the
`ObjectiveManager` constructor: story read, keys collected, enemies
defeated, win. -/
def ObjectiveManager.isComplete (g : GameFlags) : ℕ → Bool
  | 0 => g.storyRead
  | 1 => decide (g.requiredKeys ≤ g.keysCollected)
  | 2 => decide (g.enemiesLeft = 0)
  | 3 => g.win
  | _ => false

/-- `ObjectiveManager.update()` on the game's own four-step list. -/
def ObjectiveManager.updateGame (g : GameFlags) (i : ℕ) : ℕ :=
  ObjectiveManager.update g.gameOver (ObjectiveManager.isComplete g) 4 i

lemma advanceAux_mono (fuel : ℕ) (c : ℕ → Bool) (len i : ℕ) :
    i ≤ advanceAux fuel c len i := by
  induction fuel generalizing i with
  | zero => exact le_refl i
  | succ fuel ih =>
      unfold advanceAux
      split_ifs
      · exact (Nat.le_succ i).trans (ih (i + 1))
      · exact le_refl i

lemma advanceAux_bound (fuel : ℕ) (c : ℕ → Bool) (len i : ℕ)
    (h : i ≤ len - 1) : advanceAux fuel c len i ≤ len - 1 := by
  induction fuel generalizing i with
  | zero => exact h
  | succ fuel ih =>
      unfold advanceAux
      split_ifs with hc
      · exact ih (i + 1) (by omega)
      · exact h

lemma advanceAux_skipped (fuel : ℕ) (c : ℕ → Bool) (len i j : ℕ)
    (hij : i ≤ j) (hj : j < advanceAux fuel c len i) : c j = true := by
  induction fuel generalizing i with
  | zero =>
      unfold advanceAux at hj
      omega
  | succ fuel ih =>
      unfold advanceAux at hj
      split_ifs at hj with hc
      · rcases Nat.eq_or_lt_of_le hij with heq | hlt
        · exact heq ▸ hc.2
        · exact ih (i + 1) hlt hj
      · omega

lemma advanceAux_exit (fuel : ℕ) (c : ℕ → Bool) (len i : ℕ)
    (hfuel : len - 1 - i < fuel) :
    ¬(advanceAux fuel c len i < len - 1 ∧
      c (advanceAux fuel c len i) = true) := by
  induction fuel generalizing i with
  | zero => omega
  | succ fuel ih =>
      unfold advanceAux
      split_ifs with hc
      · exact ih (i + 1) (by omega)
      · exact hc

/-- C7: the objective tracker's advance never decreases the index, never
moves past the final step, leaves an index already at the final step
unchanged (so repeated calls with a satisfied final step do nothing), only
skips over steps whose completion predicate holds, stops at the first
incomplete step (fuel adequacy of the while loop), and in the two-step
scenario with the first step initially complete a single call moves the
index from 0 straight to 1. -/
theorem objective_advance_monotonic :
    (∀ (g : Bool) (c : ℕ → Bool) (len i : ℕ),
      i ≤ ObjectiveManager.update g c len i) ∧
    (∀ (g : Bool) (c : ℕ → Bool) (len i : ℕ), i ≤ len - 1 →
      ObjectiveManager.update g c len i ≤ len - 1) ∧
    (∀ (g : Bool) (c : ℕ → Bool) (len : ℕ),
      ObjectiveManager.update g c len (len - 1) = len - 1) ∧
    (∀ (c : ℕ → Bool) (len i j : ℕ), i ≤ j →
      j < ObjectiveManager.update false c len i → c j = true) ∧
    (∀ (c : ℕ → Bool) (len i : ℕ), i ≤ len - 1 →
      ¬(ObjectiveManager.update false c len i < len - 1 ∧
        c (ObjectiveManager.update false c len i) = true)) ∧
    (∀ (g : GameFlags) (i : ℕ), i ≤ 3 → ObjectiveManager.updateGame g i ≤ 3) ∧
    (∀ c : ℕ → Bool, c 0 = true → ObjectiveManager.update false c 2 0 = 1) := by
  refine ⟨?_, ?_, ?_, ?_, ?_, ?_, ?_⟩
  · intro g c len i
    unfold ObjectiveManager.update
    split_ifs
    · exact le_refl i
    · exact advanceAux_mono len c len i
  · intro g c len i h
    unfold ObjectiveManager.update
    split_ifs
    · exact h
    · exact advanceAux_bound len c len i h
  · intro g c len
    unfold ObjectiveManager.update
    split_ifs
    · rfl
    · cases len with
      | zero => rfl
      | succ n =>
          cases n with
          | zero => rfl
          | succ n =>
              unfold advanceAux
              rw [if_neg (by omega)]
  · intro c len i j hij hj
    unfold ObjectiveManager.update at hj
    rw [if_neg (by simp)] at hj
    exact advanceAux_skipped len c len i j hij hj
  · intro c len i h
    unfold ObjectiveManager.update
    rw [if_neg (by simp)]
    cases len with
    | zero =>
        intro hc
        omega
    | succ n => exact advanceAux_exit (n + 1) c (n + 1) i (by omega)
  · intro g i h
    exact (by
      unfold ObjectiveManager.updateGame ObjectiveManager.update
      split_ifs
      · exact h
      · exact advanceAux_bound 4 _ 4 i (by omega))
  · intro c hc
    unfold ObjectiveManager.update advanceAux
    rw [if_neg (by simp), if_pos ⟨by omega, hc⟩]
    unfold advanceAux
    rw [if_neg (by omega)]

/-- Witness for `objective_advance_monotonic`: the scenario list `[A, B]`
with `A.isComplete()` true — one call from index 0 lands on index 1 — plus
monotonicity and the fixed final step on the game's own step list. -/
theorem objective_advance_monotonic_witness :
    ((fun j => decide (j = 0)) 0 = true ∧
      ObjectiveManager.update false (fun j => decide (j = 0)) 2 0 = 1) ∧
    (2 : ℕ) ≤ 3 ∧ ObjectiveManager.updateGame ⟨true, 3, 3, 2, false, false⟩ 2 ≤ 3 ∧
    ObjectiveManager.update false (fun _ => true) 4 3 = 3 := by
  refine ⟨⟨by decide, ?_⟩, by norm_num, ?_, ?_⟩
  · exact objective_advance_monotonic.2.2.2.2.2.2 (fun j => decide (j = 0)) (by decide)
  · exact objective_advance_monotonic.2.2.2.2.2.1 ⟨true, 3, 3, 2, false, false⟩ 2 (by norm_num)
  · exact objective_advance_monotonic.2.2.1 false (fun _ => true) 4

/-! ## Pickups (`game/key.js`, `game/resource_pickup.js`, claim C8)

Each pickup's `update` reads the shared engine flags and the player position
and returns the new pickup state together with its effect (counter value or
healed player).  The scheduler semantics — an entity flagged
`removeFromWorld` is filtered out between ticks and receives no further
`update` call — is not in `src/` (it lives in `gameengine.js`), so the run
functions below model it from the spec. -/

/-- `KeyPickup` state (`game/key.js` constructor). -/
structure KeyPickup where
  x : ℚ
  y : ℚ
  size : ℚ
  pickupRadius : ℚ
  frames : ℕ
  frameIndex : ℕ
  animElapsed : ℚ
  frameTime : ℚ
  hasGuard : Bool
  wakeRadius : ℚ
  guardWoken : Bool
  removeFromWorld : Bool
  deriving Repr, DecidableEq

/-- `KeyPickup.update()`: stop after game over; advance the sprite
animation; wake the guard enemy once when the player first enters the wake
radius; then collect the key (increment `keysCollected`, set
`removeFromWorld`) when the player is within the pickup radius.  The
returned triple is (pickup, keysCollected, guard asleep flag). -/
def KeyPickup.update (hyp : ℚ → ℚ → ℚ) (gameOver : Bool) (px py dt : ℚ)
    (k : KeyPickup) (keysCollected : ℕ) (guardAsleep : Bool) :
    KeyPickup × ℕ × Bool :=
  if gameOver then (k, keysCollected, guardAsleep)
  else
    let ae := k.animElapsed + dt
    let k1 :=
      if ae ≥ k.frameTime then
        { k with animElapsed := 0, frameIndex := (k.frameIndex + 1) % k.frames }
      else { k with animElapsed := ae }
    let wake := k1.hasGuard && !k1.guardWoken
                  && decide (hyp (px - k1.x) (py - k1.y) ≤ k1.wakeRadius)
    let k2 := if wake then { k1 with guardWoken := true } else k1
    let asleep2 := if wake then false else guardAsleep
    if hyp (px - k2.x) (py - k2.y) ≤ k2.pickupRadius then
      ({ k2 with removeFromWorld := true }, keysCollected + 1, asleep2)
    else (k2, keysCollected, asleep2)

/-- Modelled from the spec: the GameEngine scheduler (`gameengine.js`, not
under `src/`) filters out entities flagged `removeFromWorld` between ticks,
so a collected key receives no further `update` call.  Each tick carries
(gameOver, px, py, dt). -/
def KeyPickup.run (hyp : ℚ → ℚ → ℚ) :
    List (Bool × ℚ × ℚ × ℚ) → KeyPickup × ℕ × Bool → KeyPickup × ℕ × Bool
  | [], s => s
  | t :: ts, s =>
      if s.1.removeFromWorld then s
      else KeyPickup.run hyp ts
        (KeyPickup.update hyp t.1 t.2.1 t.2.2.1 t.2.2.2 s.1 s.2.1 s.2.2)

lemma KeyPickup.update_pos (hyp : ℚ → ℚ → ℚ) (g : Bool) (px py dt : ℚ)
    (k : KeyPickup) (n : ℕ) (a : Bool) :
    (KeyPickup.update hyp g px py dt k n a).1.x = k.x ∧
    (KeyPickup.update hyp g px py dt k n a).1.y = k.y ∧
    (KeyPickup.update hyp g px py dt k n a).1.pickupRadius = k.pickupRadius := by
  unfold KeyPickup.update
  dsimp only
  split_ifs <;> exact ⟨rfl, rfl, rfl⟩

lemma KeyPickup.update_key_cases (hyp : ℚ → ℚ → ℚ) (g : Bool) (px py dt : ℚ)
    (k : KeyPickup) (n : ℕ) (a : Bool) :
    ((KeyPickup.update hyp g px py dt k n a).2.1 = n ∧
      (KeyPickup.update hyp g px py dt k n a).1.removeFromWorld = k.removeFromWorld) ∨
    ((KeyPickup.update hyp g px py dt k n a).2.1 = n + 1 ∧
      (KeyPickup.update hyp g px py dt k n a).1.removeFromWorld = true) := by
  unfold KeyPickup.update
  dsimp only
  split_ifs <;> simp

lemma KeyPickup.update_collect (hyp : ℚ → ℚ → ℚ) (px py dt : ℚ)
    (k : KeyPickup) (n : ℕ) (a : Bool)
    (hd : hyp (px - k.x) (py - k.y) ≤ k.pickupRadius) :
    (KeyPickup.update hyp false px py dt k n a).2.1 = n + 1 ∧
    (KeyPickup.update hyp false px py dt k n a).1.removeFromWorld = true := by
  unfold KeyPickup.update
  dsimp only
  rw [if_neg (by simp)]
  split_ifs <;> simp_all

lemma KeyPickup.run_key_removed (hyp : ℚ → ℚ → ℚ) (ts : List (Bool × ℚ × ℚ × ℚ))
    (s : KeyPickup × ℕ × Bool) (h : s.1.removeFromWorld = true) :
    KeyPickup.run hyp ts s = s := by
  cases ts with
  | nil => rfl
  | cons t ts =>
      unfold KeyPickup.run
      rw [if_pos h]

lemma KeyPickup.run_key_le (hyp : ℚ → ℚ → ℚ) (ts : List (Bool × ℚ × ℚ × ℚ))
    (s : KeyPickup × ℕ × Bool) :
    (KeyPickup.run hyp ts s).2.1 ≤ s.2.1 + 1 := by
  induction ts generalizing s with
  | nil => simp [KeyPickup.run]
  | cons t ts ih =>
      unfold KeyPickup.run
      by_cases hrm : s.1.removeFromWorld = true
      · rw [if_pos hrm]
        omega
      · rw [if_neg hrm]
        rcases KeyPickup.update_key_cases hyp t.1 t.2.1 t.2.2.1 t.2.2.2 s.1 s.2.1 s.2.2 with
          ⟨hn, hflag⟩ | ⟨hn, hflag⟩
        · have := ih (KeyPickup.update hyp t.1 t.2.1 t.2.2.1 t.2.2.2 s.1 s.2.1 s.2.2)
          omega
        · rw [KeyPickup.run_key_removed hyp ts _ hflag]
          omega

lemma KeyPickup.update_nocollect (hyp : ℚ → ℚ → ℚ) (px py dt : ℚ)
    (k : KeyPickup) (n : ℕ) (a : Bool)
    (hd : ¬(hyp (px - k.x) (py - k.y) ≤ k.pickupRadius)) :
    (KeyPickup.update hyp false px py dt k n a).2.1 = n ∧
    (KeyPickup.update hyp false px py dt k n a).1.removeFromWorld = k.removeFromWorld := by
  unfold KeyPickup.update
  dsimp only
  rw [if_neg (by simp)]
  split_ifs <;> exact ⟨rfl, rfl⟩

lemma KeyPickup.run_once (hyp : ℚ → ℚ → ℚ) (ts : List (Bool × ℚ × ℚ × ℚ))
    (s : KeyPickup × ℕ × Bool)
    (h0 : s.1.removeFromWorld = false)
    (hg : ∀ t ∈ ts, t.1 = false)
    (htrig : ∃ t ∈ ts, hyp (t.2.1 - s.1.x) (t.2.2.1 - s.1.y) ≤ s.1.pickupRadius) :
    (KeyPickup.run hyp ts s).2.1 = s.2.1 + 1 ∧
    (KeyPickup.run hyp ts s).1.removeFromWorld = true := by
  induction ts generalizing s with
  | nil =>
      exfalso
      rcases htrig with ⟨t, ht, -⟩
      exact absurd ht (List.not_mem_nil t)
  | cons t ts ih =>
      have hgt : t.1 = false := hg t (List.mem_cons_self t ts)
      unfold KeyPickup.run
      rw [if_neg (by simp [h0]), hgt]
      by_cases htr : hyp (t.2.1 - s.1.x) (t.2.2.1 - s.1.y) ≤ s.1.pickupRadius
      · obtain ⟨hn, hflag⟩ :=
          KeyPickup.update_collect hyp t.2.1 t.2.2.1 t.2.2.2 s.1 s.2.1 s.2.2 htr
        rw [KeyPickup.run_key_removed hyp ts _ hflag]
        exact ⟨hn, hflag⟩
      · obtain ⟨hx, hy, hr⟩ :=
          KeyPickup.update_pos hyp false t.2.1 t.2.2.1 t.2.2.2 s.1 s.2.1 s.2.2
        obtain ⟨hn, hflag⟩ :=
          KeyPickup.update_nocollect hyp t.2.1 t.2.2.1 t.2.2.2 s.1 s.2.1 s.2.2 htr
        have htrig' : ∃ u ∈ ts,
            hyp (u.2.1 - (KeyPickup.update hyp false t.2.1 t.2.2.1 t.2.2.2 s.1 s.2.1 s.2.2).1.x)
              (u.2.2.1 - (KeyPickup.update hyp false t.2.1 t.2.2.1 t.2.2.2 s.1 s.2.1 s.2.2).1.y)
              ≤ (KeyPickup.update hyp false t.2.1 t.2.2.1 t.2.2.2 s.1 s.2.1 s.2.2).1.pickupRadius := by
          rcases htrig with ⟨u, hu, hud⟩
          rcases List.mem_cons.mp hu with rfl | hu'
          · exact absurd hud htr
          · exact ⟨u, hu', by rw [hx, hy, hr]; exact hud⟩
        obtain ⟨ih1, ih2⟩ := ih _ (by rw [hflag]; exact h0)
          (fun u hu => hg u (List.mem_cons_of_mem t hu)) htrig'
        exact ⟨by rw [ih1, hn], ih2⟩

/-- `HeartPickup` state (`game/resource_pickup.js`; the DOM glow element is
presentation-only). -/
structure HeartPickup where
  x : ℚ
  y : ℚ
  size : ℚ
  pickupRadius : ℚ
  removeFromWorld : Bool
  deriving Repr, DecidableEq

/-- `HeartPickup.update()`: frozen after game over / win; otherwise
`checkPickup()` — if the player is within the pickup radius, apply the
clamped +1 heal (`onPickup`) and mark for removal. -/
def HeartPickup.update (hyp : ℚ → ℚ → ℚ) (gameOver win : Bool) (px py : ℚ)
    (h : HeartPickup) (pl : Player) : HeartPickup × Player :=
  if gameOver || win then (h, pl)
  else if hyp (px - h.x) (py - h.y) ≤ h.pickupRadius then
    ({ h with removeFromWorld := true }, Player.heartHeal pl)
  else (h, pl)

/-- Modelled from the spec: scheduler removal semantics for the heart
pickup (see `KeyPickup.run`).  Each tick carries (gameOver, win, px, py). -/
def HeartPickup.run (hyp : ℚ → ℚ → ℚ) :
    List (Bool × Bool × ℚ × ℚ) → HeartPickup × Player → HeartPickup × Player
  | [], s => s
  | t :: ts, s =>
      if s.1.removeFromWorld then s
      else HeartPickup.run hyp ts
        (HeartPickup.update hyp t.1 t.2.1 t.2.2.1 t.2.2.2 s.1 s.2)

lemma HeartPickup.run_heart_removed (hyp : ℚ → ℚ → ℚ) (ts : List (Bool × Bool × ℚ × ℚ))
    (s : HeartPickup × Player) (h : s.1.removeFromWorld = true) :
    HeartPickup.run hyp ts s = s := by
  cases ts with
  | nil => rfl
  | cons t ts =>
      unfold HeartPickup.run
      rw [if_pos h]

lemma HeartPickup.update_heart_cases (hyp : ℚ → ℚ → ℚ) (g w : Bool) (px py : ℚ)
    (h : HeartPickup) (pl : Player) :
    (HeartPickup.update hyp g w px py h pl
        = (h, pl)) ∨
    ((HeartPickup.update hyp g w px py h pl).2 = Player.heartHeal pl ∧
      (HeartPickup.update hyp g w px py h pl).1.removeFromWorld = true) := by
  unfold HeartPickup.update
  split_ifs
  · exact Or.inl rfl
  · exact Or.inr ⟨rfl, rfl⟩
  · exact Or.inl rfl

/-- Over a whole heart-pickup lifetime the player is either untouched or
healed by exactly one clamped +1 heal. -/
lemma HeartPickup.run_effect (hyp : ℚ → ℚ → ℚ) (ts : List (Bool × Bool × ℚ × ℚ))
    (s : HeartPickup × Player) :
    (HeartPickup.run hyp ts s).2 = s.2 ∨
    (HeartPickup.run hyp ts s).2 = Player.heartHeal s.2 := by
  induction ts generalizing s with
  | nil => exact Or.inl rfl
  | cons t ts ih =>
      unfold HeartPickup.run
      by_cases hrm : s.1.removeFromWorld = true
      · rw [if_pos hrm]
        exact Or.inl rfl
      · rw [if_neg hrm]
        rcases HeartPickup.update_heart_cases hyp t.1 t.2.1 t.2.2.1 t.2.2.2 s.1 s.2 with
          heq | ⟨hpl, hflag⟩
        · rw [heq]
          exact ih s
        · rw [HeartPickup.run_heart_removed hyp ts _ hflag]
          exact Or.inr hpl

lemma HeartPickup.update_heart_pos (hyp : ℚ → ℚ → ℚ) (g w : Bool) (px py : ℚ)
    (h : HeartPickup) (pl : Player) :
    (HeartPickup.update hyp g w px py h pl).1.x = h.x ∧
    (HeartPickup.update hyp g w px py h pl).1.y = h.y ∧
    (HeartPickup.update hyp g w px py h pl).1.pickupRadius = h.pickupRadius := by
  unfold HeartPickup.update
  split_ifs <;> exact ⟨rfl, rfl, rfl⟩

lemma HeartPickup.update_heart_collect (hyp : ℚ → ℚ → ℚ) (px py : ℚ)
    (h : HeartPickup) (pl : Player)
    (hd : hyp (px - h.x) (py - h.y) ≤ h.pickupRadius) :
    HeartPickup.update hyp false false px py h pl
      = ({ h with removeFromWorld := true }, Player.heartHeal pl) := by
  unfold HeartPickup.update
  rw [if_neg (by simp), if_pos hd]

lemma HeartPickup.update_heart_nocollect (hyp : ℚ → ℚ → ℚ) (px py : ℚ)
    (h : HeartPickup) (pl : Player)
    (hd : ¬(hyp (px - h.x) (py - h.y) ≤ h.pickupRadius)) :
    HeartPickup.update hyp false false px py h pl = (h, pl) := by
  unfold HeartPickup.update
  rw [if_neg (by simp), if_neg hd]

/-- A heart whose player comes within the pickup radius on some tick before
game over / win heals exactly once and is marked for removal. -/
lemma HeartPickup.run_heart_once (hyp : ℚ → ℚ → ℚ) (ts : List (Bool × Bool × ℚ × ℚ))
    (s : HeartPickup × Player)
    (h0 : s.1.removeFromWorld = false)
    (hg : ∀ t ∈ ts, t.1 = false ∧ t.2.1 = false)
    (htrig : ∃ t ∈ ts, hyp (t.2.2.1 - s.1.x) (t.2.2.2 - s.1.y) ≤ s.1.pickupRadius) :
    (HeartPickup.run hyp ts s).2 = Player.heartHeal s.2 ∧
    (HeartPickup.run hyp ts s).1.removeFromWorld = true := by
  induction ts generalizing s with
  | nil =>
      exfalso
      rcases htrig with ⟨t, ht, -⟩
      exact absurd ht (List.not_mem_nil t)
  | cons t ts ih =>
      obtain ⟨hgt, hwt⟩ := hg t (List.mem_cons_self t ts)
      unfold HeartPickup.run
      rw [if_neg (by simp [h0]), hgt, hwt]
      by_cases htr : hyp (t.2.2.1 - s.1.x) (t.2.2.2 - s.1.y) ≤ s.1.pickupRadius
      · rw [HeartPickup.update_heart_collect hyp t.2.2.1 t.2.2.2 s.1 s.2 htr]
        rw [HeartPickup.run_heart_removed hyp ts _ rfl]
        exact ⟨rfl, rfl⟩
      · rw [HeartPickup.update_heart_nocollect hyp t.2.2.1 t.2.2.2 s.1 s.2 htr,
          Prod.mk.eta]
        have htrig' : ∃ u ∈ ts,
            hyp (u.2.2.1 - s.1.x) (u.2.2.2 - s.1.y) ≤ s.1.pickupRadius := by
          rcases htrig with ⟨u, hu, hud⟩
          rcases List.mem_cons.mp hu with rfl | hu'
          · exact absurd hud htr
          · exact ⟨u, hu', hud⟩
        exact ih s h0 (fun u hu => hg u (List.mem_cons_of_mem t hu)) htrig'

/-- `CoinPickup` state (`game/resource_pickup.js`). -/
structure CoinPickup where
  x : ℚ
  y : ℚ
  size : ℚ
  pickupRadius : ℚ
  frames : ℕ
  frameIndex : ℕ
  animElapsed : ℚ
  frameTime : ℚ
  removeFromWorld : Bool
  deriving Repr, DecidableEq

/-- `CoinPickup.update()`: frozen after game over / win; the sprite drain
loop `while (animElapsed >= frameTime) { animElapsed -= frameTime;
frameIndex = (frameIndex + 1) % frames }` is written in closed form (for
`frameTime > 0` the loop runs exactly `⌊animElapsed / frameTime⌋` times,
leaving a remainder in `[0, frameTime)`); then `checkPickup()` increments
`coinsCollected` and marks for removal when the player is in range. -/
def CoinPickup.update (hyp : ℚ → ℚ → ℚ) (gameOver win : Bool) (px py dt : ℚ)
    (c : CoinPickup) (coins : ℕ) : CoinPickup × ℕ :=
  if gameOver || win then (c, coins)
  else
    let ae := c.animElapsed + dt
    let n : ℕ := if 0 < c.frameTime then (⌊ae / c.frameTime⌋).toNat else 0
    let c1 := { c with animElapsed := ae - n * c.frameTime
                       frameIndex := (c.frameIndex + n) % c.frames }
    if hyp (px - c1.x) (py - c1.y) ≤ c1.pickupRadius then
      ({ c1 with removeFromWorld := true }, coins + 1)
    else (c1, coins)

/-- Modelled from the spec: scheduler removal semantics for the coin pickup
(see `KeyPickup.run`).  Each tick carries (gameOver, win, px, py, dt). -/
def CoinPickup.run (hyp : ℚ → ℚ → ℚ) :
    List (Bool × Bool × ℚ × ℚ × ℚ) → CoinPickup × ℕ → CoinPickup × ℕ
  | [], s => s
  | t :: ts, s =>
      if s.1.removeFromWorld then s
      else CoinPickup.run hyp ts
        (CoinPickup.update hyp t.1 t.2.1 t.2.2.1 t.2.2.2.1 t.2.2.2.2 s.1 s.2)

lemma CoinPickup.run_coin_removed (hyp : ℚ → ℚ → ℚ) (ts : List (Bool × Bool × ℚ × ℚ × ℚ))
    (s : CoinPickup × ℕ) (h : s.1.removeFromWorld = true) :
    CoinPickup.run hyp ts s = s := by
  cases ts with
  | nil => rfl
  | cons t ts =>
      unfold CoinPickup.run
      rw [if_pos h]

lemma CoinPickup.update_coin_cases (hyp : ℚ → ℚ → ℚ) (g w : Bool) (px py dt : ℚ)
    (c : CoinPickup) (coins : ℕ) :
    ((CoinPickup.update hyp g w px py dt c coins).2 = coins ∧
      (CoinPickup.update hyp g w px py dt c coins).1.removeFromWorld = c.removeFromWorld) ∨
    ((CoinPickup.update hyp g w px py dt c coins).2 = coins + 1 ∧
      (CoinPickup.update hyp g w px py dt c coins).1.removeFromWorld = true) := by
  unfold CoinPickup.update
  dsimp only
  split_ifs <;> simp

/-- A coin is collected at most once over its lifetime. -/
lemma CoinPickup.run_coin_le (hyp : ℚ → ℚ → ℚ) (ts : List (Bool × Bool × ℚ × ℚ × ℚ))
    (s : CoinPickup × ℕ) :
    (CoinPickup.run hyp ts s).2 ≤ s.2 + 1 := by
  induction ts generalizing s with
  | nil => simp [CoinPickup.run]
  | cons t ts ih =>
      unfold CoinPickup.run
      by_cases hrm : s.1.removeFromWorld = true
      · rw [if_pos hrm]
        omega
      · rw [if_neg hrm]
        rcases CoinPickup.update_coin_cases hyp t.1 t.2.1 t.2.2.1 t.2.2.2.1 t.2.2.2.2 s.1 s.2 with
          ⟨hn, -⟩ | ⟨hn, hflag⟩
        · have := ih (CoinPickup.update hyp t.1 t.2.1 t.2.2.1 t.2.2.2.1 t.2.2.2.2 s.1 s.2)
          omega
        · rw [CoinPickup.run_coin_removed hyp ts _ hflag]
          omega

lemma CoinPickup.update_coin_pos (hyp : ℚ → ℚ → ℚ) (g w : Bool) (px py dt : ℚ)
    (c : CoinPickup) (coins : ℕ) :
    (CoinPickup.update hyp g w px py dt c coins).1.x = c.x ∧
    (CoinPickup.update hyp g w px py dt c coins).1.y = c.y ∧
    (CoinPickup.update hyp g w px py dt c coins).1.pickupRadius = c.pickupRadius := by
  unfold CoinPickup.update
  dsimp only
  split_ifs <;> exact ⟨rfl, rfl, rfl⟩

lemma CoinPickup.update_coin_collect (hyp : ℚ → ℚ → ℚ) (px py dt : ℚ)
    (c : CoinPickup) (coins : ℕ)
    (hd : hyp (px - c.x) (py - c.y) ≤ c.pickupRadius) :
    (CoinPickup.update hyp false false px py dt c coins).2 = coins + 1 ∧
    (CoinPickup.update hyp false false px py dt c coins).1.removeFromWorld = true := by
  unfold CoinPickup.update
  dsimp only
  rw [if_neg (by simp)]
  split_ifs <;> simp_all

lemma CoinPickup.update_coin_nocollect (hyp : ℚ → ℚ → ℚ) (px py dt : ℚ)
    (c : CoinPickup) (coins : ℕ)
    (hd : ¬(hyp (px - c.x) (py - c.y) ≤ c.pickupRadius)) :
    (CoinPickup.update hyp false false px py dt c coins).2 = coins ∧
    (CoinPickup.update hyp false false px py dt c coins).1.removeFromWorld
      = c.removeFromWorld := by
  unfold CoinPickup.update
  dsimp only
  rw [if_neg (by simp)]
  split_ifs <;> simp_all

/-- A coin whose player comes within the pickup radius on some tick before
game over / win is collected exactly once and marked for removal. -/
lemma CoinPickup.run_coin_once (hyp : ℚ → ℚ → ℚ) (ts : List (Bool × Bool × ℚ × ℚ × ℚ))
    (s : CoinPickup × ℕ)
    (h0 : s.1.removeFromWorld = false)
    (hg : ∀ t ∈ ts, t.1 = false ∧ t.2.1 = false)
    (htrig : ∃ t ∈ ts, hyp (t.2.2.1 - s.1.x) (t.2.2.2.1 - s.1.y) ≤ s.1.pickupRadius) :
    (CoinPickup.run hyp ts s).2 = s.2 + 1 ∧
    (CoinPickup.run hyp ts s).1.removeFromWorld = true := by
  induction ts generalizing s with
  | nil =>
      exfalso
      rcases htrig with ⟨t, ht, -⟩
      exact absurd ht (List.not_mem_nil t)
  | cons t ts ih =>
      obtain ⟨hgt, hwt⟩ := hg t (List.mem_cons_self t ts)
      unfold CoinPickup.run
      rw [if_neg (by simp [h0]), hgt, hwt]
      by_cases htr : hyp (t.2.2.1 - s.1.x) (t.2.2.2.1 - s.1.y) ≤ s.1.pickupRadius
      · obtain ⟨hn, hflag⟩ :=
          CoinPickup.update_coin_collect hyp t.2.2.1 t.2.2.2.1 t.2.2.2.2 s.1 s.2 htr
        rw [CoinPickup.run_coin_removed hyp ts _ hflag]
        exact ⟨hn, hflag⟩
      · obtain ⟨hx, hy, hr⟩ :=
          CoinPickup.update_coin_pos hyp false false t.2.2.1 t.2.2.2.1 t.2.2.2.2 s.1 s.2
        obtain ⟨hn, hflag⟩ :=
          CoinPickup.update_coin_nocollect hyp t.2.2.1 t.2.2.2.1 t.2.2.2.2 s.1 s.2 htr
        have htrig' : ∃ u ∈ ts,
            hyp (u.2.2.1
                  - (CoinPickup.update hyp false false t.2.2.1 t.2.2.2.1 t.2.2.2.2 s.1 s.2).1.x)
              (u.2.2.2.1
                  - (CoinPickup.update hyp false false t.2.2.1 t.2.2.2.1 t.2.2.2.2 s.1 s.2).1.y)
              ≤ (CoinPickup.update hyp false false t.2.2.1 t.2.2.2.1 t.2.2.2.2 s.1 s.2).1.pickupRadius := by
          rcases htrig with ⟨u, hu, hud⟩
          rcases List.mem_cons.mp hu with rfl | hu'
          · exact absurd hud htr
          · exact ⟨u, hu', by rw [hx, hy, hr]; exact hud⟩
        obtain ⟨ih1, ih2⟩ := ih _ (by rw [hflag]; exact h0)
          (fun u hu => hg u (List.mem_cons_of_mem t hu)) htrig'
        exact ⟨by rw [ih1, hn], ih2⟩

/-- C8: under the scheduler's removal semantics, every pickup applies its
effect at most once over its whole lifetime, and exactly once — with the
pickup marked for removal — when the player comes within the pickup radius
on some tick before game over / win: a key increments `keysCollected` by
exactly one, a heart applies exactly one clamped +1 heal
(`hp := min maxHp (hp + 1)`), and a coin increments `coinsCollected` by
exactly one.  In the spec's scenario — radius 20 pickup at (100, 100) and
player at (100, 115), distance 15 — two consecutive ticks at the same
distance collect exactly once: the counter ends at 1, not 2, and the pickup
is removed (the second tick is a silent no-op because the scheduler never
delivers it). -/
theorem pickup_exactly_once :
    (∀ (hyp : ℚ → ℚ → ℚ) (ts : List (Bool × ℚ × ℚ × ℚ)) (s : KeyPickup × ℕ × Bool),
      (KeyPickup.run hyp ts s).2.1 ≤ s.2.1 + 1) ∧
    (∀ (hyp : ℚ → ℚ → ℚ) (ts : List (Bool × ℚ × ℚ × ℚ)) (s : KeyPickup × ℕ × Bool),
      s.1.removeFromWorld = false → (∀ t ∈ ts, t.1 = false) →
      (∃ t ∈ ts, hyp (t.2.1 - s.1.x) (t.2.2.1 - s.1.y) ≤ s.1.pickupRadius) →
      (KeyPickup.run hyp ts s).2.1 = s.2.1 + 1 ∧
      (KeyPickup.run hyp ts s).1.removeFromWorld = true) ∧
    (∀ (hyp : ℚ → ℚ → ℚ) (ts : List (Bool × Bool × ℚ × ℚ)) (s : HeartPickup × Player),
      (HeartPickup.run hyp ts s).2 = s.2 ∨
      (HeartPickup.run hyp ts s).2 = Player.heartHeal s.2) ∧
    (∀ (hyp : ℚ → ℚ → ℚ) (ts : List (Bool × Bool × ℚ × ℚ)) (s : HeartPickup × Player),
      s.1.removeFromWorld = false → (∀ t ∈ ts, t.1 = false ∧ t.2.1 = false) →
      (∃ t ∈ ts, hyp (t.2.2.1 - s.1.x) (t.2.2.2 - s.1.y) ≤ s.1.pickupRadius) →
      (HeartPickup.run hyp ts s).2 = Player.heartHeal s.2 ∧
      (HeartPickup.run hyp ts s).1.removeFromWorld = true) ∧
    (∀ p : Player, (Player.heartHeal p).hp = min p.maxHp (p.hp + 1)) ∧
    (∀ (hyp : ℚ → ℚ → ℚ) (ts : List (Bool × Bool × ℚ × ℚ × ℚ)) (s : CoinPickup × ℕ),
      (CoinPickup.run hyp ts s).2 ≤ s.2 + 1) ∧
    (∀ (hyp : ℚ → ℚ → ℚ) (ts : List (Bool × Bool × ℚ × ℚ × ℚ)) (s : CoinPickup × ℕ),
      s.1.removeFromWorld = false → (∀ t ∈ ts, t.1 = false ∧ t.2.1 = false) →
      (∃ t ∈ ts, hyp (t.2.2.1 - s.1.x) (t.2.2.2.1 - s.1.y) ≤ s.1.pickupRadius) →
      (CoinPickup.run hyp ts s).2 = s.2 + 1 ∧
      (CoinPickup.run hyp ts s).1.removeFromWorld = true) ∧
    (KeyPickup.run hypAxis
        [(false, 100, 115, 1/60), (false, 100, 115, 1/60)]
        (⟨100, 100, 18, 20, 18, 0, 0, 2/25, false, 220, false, false⟩, 0, false)).2.1 = 1 ∧
    (KeyPickup.run hypAxis
        [(false, 100, 115, 1/60), (false, 100, 115, 1/60)]
        (⟨100, 100, 18, 20, 18, 0, 0, 2/25, false, 220, false, false⟩, 0, false)).1.removeFromWorld
      = true := by
  have hscn := KeyPickup.run_once hypAxis
      [(false, 100, 115, 1/60), (false, 100, 115, 1/60)]
      (⟨100, 100, 18, 20, 18, 0, 0, 2/25, false, 220, false, false⟩, 0, false)
      rfl
      (by intro t ht; fin_cases ht <;> rfl)
      ⟨(false, 100, 115, 1/60), by simp, by norm_num [hypAxis]⟩
  exact ⟨KeyPickup.run_key_le, KeyPickup.run_once, HeartPickup.run_effect,
    HeartPickup.run_heart_once, fun p => rfl, CoinPickup.run_coin_le,
    CoinPickup.run_coin_once, hscn.1, hscn.2⟩

/-- Witness for `pickup_exactly_once`: the exactly-once statements for the
key, the heart and the coin applied at concrete scenarios (radius-20
pickups at (100, 100), player at (100, 115), distance 15), with each
hypothesis discharged there. -/
theorem pickup_exactly_once_witness :
    ((⟨100, 100, 18, 20, 18, 0, 0, 2/25, false, 220, false, false⟩ : KeyPickup),
        (0 : ℕ), false).1.removeFromWorld = false ∧
    (KeyPickup.run hypAxis
        [(false, 100, 115, 1/60), (false, 100, 115, 1/60)]
        (⟨100, 100, 18, 20, 18, 0, 0, 2/25, false, 220, false, false⟩, 0, false)).2.1 = 0 + 1 ∧
    (HeartPickup.run hypAxis [(false, false, 100, 115)]
        (⟨100, 100, 24, 20, false⟩, Player.init 100 100)).2
      = Player.heartHeal (Player.init 100 100) ∧
    (HeartPickup.run hypAxis [(false, false, 100, 115)]
        (⟨100, 100, 24, 20, false⟩, Player.init 100 100)).1.removeFromWorld = true ∧
    (CoinPickup.run hypAxis [(false, false, 100, 115, 1/60)]
        (⟨100, 100, 22, 20, 6, 0, 0, 2/25, false⟩, 0)).2 = 0 + 1 ∧
    (CoinPickup.run hypAxis [(false, false, 100, 115, 1/60)]
        (⟨100, 100, 22, 20, 6, 0, 0, 2/25, false⟩, 0)).1.removeFromWorld = true := by
  have hheart := pickup_exactly_once.2.2.2.1 hypAxis [(false, false, 100, 115)]
    (⟨100, 100, 24, 20, false⟩, Player.init 100 100)
    rfl
    (by intro t ht; fin_cases ht; exact ⟨rfl, rfl⟩)
    ⟨(false, false, 100, 115), by simp, by norm_num [hypAxis]⟩
  have hcoin := pickup_exactly_once.2.2.2.2.2.2.1 hypAxis [(false, false, 100, 115, 1/60)]
    (⟨100, 100, 22, 20, 6, 0, 0, 2/25, false⟩, 0)
    rfl
    (by intro t ht; fin_cases ht; exact ⟨rfl, rfl⟩)
    ⟨(false, false, 100, 115, 1/60), by simp, by norm_num [hypAxis]⟩
  refine ⟨rfl, ?_, hheart.1, hheart.2, hcoin.1, hcoin.2⟩
  exact (pickup_exactly_once.2.1 hypAxis
    [(false, 100, 115, 1/60), (false, 100, 115, 1/60)]
    (⟨100, 100, 18, 20, 18, 0, 0, 2/25, false, 220, false, false⟩, 0, false)
    rfl
    (by intro t ht; fin_cases ht <;> rfl)
    ⟨(false, 100, 115, 1/60), by simp, by norm_num [hypAxis]⟩).1
